import Mathlib

/-!
Verification of the geometric nesting engine of the page-selection-optimizer
repository.  The TypeScript sources are shallowly embedded: JavaScript numbers
become exact rationals, arrays become lists, the asynchronous Clipper2 kernel
(an external WASM library) becomes an explicit `ClipperKernel` parameter whose
behaviour is quantified over, and the `while` loops become fuel recursion with
fuel equal to the source's own explicit attempt budget.

Idealisations, stated once here:
* IEEE-754 doubles are read as exact rationals (standard for this code, which
  performs no bit-level float tricks).
* `Math.cos`/`Math.sin`/`Math.sqrt` are modelled by `jsCosSin`/`jsSqrt` below:
  exact at multiples of 90 degrees, a stated rational approximation elsewhere.
* `Math.round` (half toward positive infinity) is `jsRound`.
* Square roots inside the (never-exercised) positive-margin branch of the
  collision oracle are replaced by squared-distance comparisons, which decide
  the same predicate because both sides are non-negative.
-/

namespace Nesting

/-- Source `types.ts`: `Point` with numeric coordinates. -/
structure Point where
  x : ℚ
  y : ℚ
deriving DecidableEq, Repr

/-- Source `types.ts`: `Polygon = Point[]`. -/
abbrev Polygon := List Point

/-- Source `types.ts`: `BoundingBox`. -/
structure BoundingBox where
  x : ℚ
  y : ℚ
  width : ℚ
  height : ℚ
deriving DecidableEq, Repr

/-- Source `types.ts`: `Placement`.  The TypeScript declaration restricts
`rotation` to the literal union `0 | 90 | 180 | 270`, but the placers store
`bestRotation % 360` through an unchecked `as` cast, so the runtime value can
be any number; the embedding therefore uses `ℚ` (see claim C8). -/
structure Placement where
  designId : String
  x : ℚ
  y : ℚ
  rotation : ℚ
deriving DecidableEq, Repr

/-- Source `types.ts`: `Design`, restricted to the fields the nesting engine
reads (`id`, `boundingBox`, `polygons`, `area`); `name`, `svgContent` and
`viewBox` are never consulted by the embedded functions. -/
structure Design where
  id : String
  boundingBox : BoundingBox
  polygons : List Polygon
  area : ℚ
deriving DecidableEq, Repr

/-- Min/max corners of a set of points; the record shape used by the local
`getPolygonBBox` helpers of `nfpPlacer.ts`, `geneticAlgorithm.ts` and
`nfpAlgorithm.ts`. -/
structure BBoxMM where
  minX : ℚ
  minY : ℚ
  maxX : ℚ
  maxY : ℚ
deriving DecidableEq, Repr

/-- One step of the min/max corner fold. -/
def mmStep (b : BBoxMM) (q : Point) : BBoxMM :=
  ⟨min b.minX q.x, min b.minY q.y, max b.maxX q.x, max b.maxY q.y⟩

/-- Shared fold behind every `getPolygonBBox` in the sources: running min/max
over the vertex list.  The sources initialise with `±Infinity`; on a nonempty
list that is the same as initialising with the first vertex, which is what we
do.  For the empty list (never reached by any embedded call on the paths the
theorems exercise) we return the degenerate zero box. -/
def polyMM (polygon : Polygon) : BBoxMM :=
  match polygon with
  | [] => ⟨0, 0, 0, 0⟩
  | p :: ps => ps.foldl mmStep ⟨p.x, p.y, p.x, p.y⟩

namespace GeometryUtils

/-- Modelled from the spec: "Rotation uses double precision; degrees are
converted to radians" (§4.1).  `jsCosSin d` models
`(Math.cos(d·π/180), Math.sin(d·π/180))`.  At multiples of 90° the doubles are
within 1e-16 of the exact values, which we idealise to exact; at odd multiples
of 45° we take the 4-digit approximation 0.7071 of √2/2 (the exact double is
irrational-valued and 0.70710678118…; every theorem below that touches these
angles is robust to this difference).  Other angles are not exercised by any
theorem in this file. -/
def jsCosSin (deg : ℚ) : ℚ × ℚ :=
  if deg = 0 then (1, 0)
  else if deg = 45 then (7071/10000, 7071/10000)
  else if deg = 90 then (0, 1)
  else if deg = 135 then (-(7071/10000), 7071/10000)
  else if deg = 180 then (-1, 0)
  else if deg = 225 then (-(7071/10000), -(7071/10000))
  else if deg = 270 then (0, -1)
  else if deg = 315 then (7071/10000, -(7071/10000))
  else (1, 0)

/-- Source `geometryUtils.ts` `rotatePoint`. -/
def rotatePoint (point : Point) (angleDegrees : ℚ) (center : Point) : Point :=
  let cs := jsCosSin angleDegrees
  let dx := point.x - center.x
  let dy := point.y - center.y
  ⟨center.x + dx * cs.1 - dy * cs.2, center.y + dx * cs.2 + dy * cs.1⟩

/-- Source `geometryUtils.ts` `rotatePolygon`.  The source's `center`
parameter is optional, defaulting to the vertex centroid; every call site in
the embedded engine passes an explicit centre, so the embedding makes it
required. -/
def rotatePolygon (polygon : Polygon) (angleDegrees : ℚ) (center : Point) : Polygon :=
  polygon.map (fun p => rotatePoint p angleDegrees center)

/-- Source `geometryUtils.ts` `translatePolygon`. -/
def translatePolygon (polygon : Polygon) (dx dy : ℚ) : Polygon :=
  polygon.map (fun p => ⟨p.x + dx, p.y + dy⟩)

/-- Source `geometryUtils.ts` `getPolygonBoundingBox`. -/
def getPolygonBoundingBox (polygon : Polygon) : BoundingBox :=
  match polygon with
  | [] => ⟨0, 0, 0, 0⟩
  | _ =>
    let mm := polyMM polygon
    ⟨mm.minX, mm.minY, mm.maxX - mm.minX, mm.maxY - mm.minY⟩

/-- Source `geometryUtils.ts` `getPolygonsBoundingBox`: min/max over all
points of all polygons (the fold over the concatenation). -/
def getPolygonsBoundingBox (polygons : List Polygon) : BoundingBox :=
  match polygons with
  | [] => ⟨0, 0, 0, 0⟩
  | _ => getPolygonBoundingBox polygons.flatten

/-- Source `geometryUtils.ts` `doBoundingBoxesOverlap`. -/
def doBoundingBoxesOverlap (a b : BoundingBox) (margin : ℚ) : Bool :=
  !(a.x + a.width + margin ≤ b.x ||
    b.x + b.width + margin ≤ a.x ||
    a.y + a.height + margin ≤ b.y ||
    b.y + b.height + margin ≤ a.y)

/-- Source `geometryUtils.ts` `normalizePolygonToOrigin`: translate so the
first vertex is the origin. -/
def normalizePolygonToOrigin (polygon : Polygon) : Polygon :=
  match polygon with
  | [] => []
  | ref :: _ => polygon.map (fun p => ⟨p.x - ref.x, p.y - ref.y⟩)

end GeometryUtils

namespace CollisionDetection

/-- Source `collisionDetection.ts` `direction`: the cross product
`(c − a) × (b − a)` used by the segment-intersection test. -/
def direction (a b c : Point) : ℚ :=
  (c.x - a.x) * (b.y - a.y) - (b.x - a.x) * (c.y - a.y)

/-- Source `collisionDetection.ts` `onSegment`: collinear point inside the
bounding box of the segment. -/
def onSegment (a b c : Point) : Bool :=
  decide (min a.x b.x ≤ c.x) && decide (c.x ≤ max a.x b.x) &&
  decide (min a.y b.y ≤ c.y) && decide (c.y ≤ max a.y b.y)

/-- Source `collisionDetection.ts` `doSegmentsIntersect` (proper crossing plus
the four collinear-touch cases). -/
def doSegmentsIntersect (a1 a2 b1 b2 : Point) : Bool :=
  let d1 := direction b1 b2 a1
  let d2 := direction b1 b2 a2
  let d3 := direction a1 a2 b1
  let d4 := direction a1 a2 b2
  if ((decide (d1 > 0) && decide (d2 < 0)) || (decide (d1 < 0) && decide (d2 > 0))) &&
     ((decide (d3 > 0) && decide (d4 < 0)) || (decide (d3 < 0) && decide (d4 > 0))) then true
  else if decide (d1 = 0) && onSegment b1 b2 a1 then true
  else if decide (d2 = 0) && onSegment b1 b2 a2 then true
  else if decide (d3 = 0) && onSegment a1 a2 b1 then true
  else if decide (d4 = 0) && onSegment a1 a2 b2 then true
  else false

/-- Source `collisionDetection.ts` `isPointInPolygon` (ray casting with the
half-open convention `(yi > py) ≠ (yj > py)`).  The indexed `for` loop with
`j = (i − 1 + n) mod n` is rendered with `List.range`; out-of-range `getD`
defaults are unreachable for the indices produced. -/
def isPointInPolygon (point : Point) (polygon : Polygon) : Bool :=
  let n := polygon.length
  (List.range n).foldl
    (fun inside i =>
      let pi := polygon.getD i ⟨0, 0⟩
      let pj := polygon.getD ((i + n - 1) % n) ⟨0, 0⟩
      if (decide (pi.y > point.y) != decide (pj.y > point.y)) &&
         decide (point.x < (pj.x - pi.x) * (point.y - pi.y) / (pj.y - pi.y) + pi.x)
      then !inside else inside)
    false

/-- Edge list `(polygon[i], polygon[(i+1) % n])` used by the quadratic edge
scans of `satCollisionCheck` and the distance helpers. -/
def edgesOf (polygon : Polygon) : List (Point × Point) :=
  let n := polygon.length
  (List.range n).map (fun i => (polygon.getD i ⟨0, 0⟩, polygon.getD ((i + 1) % n) ⟨0, 0⟩))

/-- Source `collisionDetection.ts` `satCollisionCheck`: any pair of edges
intersects, or either polygon's first vertex lies ray-cast inside the other.
(The empty-polygon `polygon[0]` access, `undefined` in JavaScript, is rendered
with the `(0,0)` default; all theorems below use polygons with ≥ 3 vertices.) -/
def satCollisionCheck (polygonA polygonB : Polygon) : Bool :=
  ((edgesOf polygonA).any (fun ea =>
    (edgesOf polygonB).any (fun eb => doSegmentsIntersect ea.1 ea.2 eb.1 eb.2))) ||
  isPointInPolygon (polygonA.getD 0 ⟨0, 0⟩) polygonB ||
  isPointInPolygon (polygonB.getD 0 ⟨0, 0⟩) polygonA

/-- Squared distance from `point` to segment `[a, b]` with the source's
`t`-clamping (`pointToSegmentDist` squared; the source takes `Math.hypot`,
whose square this is — squaring avoids irrational values and decides the same
comparisons because both sides are non-negative). -/
def pointToSegmentDistSq (point a b : Point) : ℚ :=
  let dx := b.x - a.x
  let dy := b.y - a.y
  let lengthSq := dx * dx + dy * dy
  if lengthSq = 0 then
    (point.x - a.x) * (point.x - a.x) + (point.y - a.y) * (point.y - a.y)
  else
    let t := max 0 (min 1 (((point.x - a.x) * dx + (point.y - a.y) * dy) / lengthSq))
    let projX := a.x + t * dx
    let projY := a.y + t * dy
    (point.x - projX) * (point.x - projX) + (point.y - projY) * (point.y - projY)

/-- Source `collisionDetection.ts` `getMinPolygonDistance`, squared: `0` if the
polygons already overlap by `satCollisionCheck`, otherwise the minimum over
vertex-to-opposite-edge squared distances in both directions.  The source's
`Infinity` initial accumulator is `⊤` in `WithTop ℚ`. -/
def getMinPolygonDistanceSq (polygonA polygonB : Polygon) : WithTop ℚ :=
  if satCollisionCheck polygonA polygonB then (0 : WithTop ℚ)
  else
    let d1 := polygonA.foldl (fun m p =>
      (edgesOf polygonB).foldl (fun m e => min m ((pointToSegmentDistSq p e.1 e.2 : ℚ) : WithTop ℚ)) m) ⊤
    polygonB.foldl (fun m p =>
      (edgesOf polygonA).foldl (fun m e => min m ((pointToSegmentDistSq p e.1 e.2 : ℚ) : WithTop ℚ)) m) d1

/-- Source `collisionDetection.ts` `doPolygonsCollide`: bounding-box prefilter,
then minimum-distance comparison for positive margin, else the exact
segment-intersection + containment check.  The margin comparison
`minDist < margin` is rendered as `minDistSq < margin²` (same truth value). -/
def doPolygonsCollide (polygonA polygonB : Polygon) (margin : ℚ) : Bool :=
  let bboxA := GeometryUtils.getPolygonBoundingBox polygonA
  let bboxB := GeometryUtils.getPolygonBoundingBox polygonB
  if !GeometryUtils.doBoundingBoxesOverlap bboxA bboxB margin then false
  else if margin > 0 then
    decide (getMinPolygonDistanceSq polygonA polygonB < ((margin * margin : ℚ) : WithTop ℚ))
  else satCollisionCheck polygonA polygonB

/-- Source `collisionDetection.ts` `getMinDistanceToBounds`: minimum over all
vertices of the four axis distances to the rectangle's edges; `Infinity`
initial value rendered as `⊤`. -/
def getMinDistanceToBounds (polygon : Polygon) (bounds : BoundingBox) : WithTop ℚ :=
  polygon.foldl
    (fun m p =>
      min m (min (min ((p.x - bounds.x : ℚ) : WithTop ℚ) ((bounds.x + bounds.width - p.x : ℚ) : WithTop ℚ))
                 (min ((p.y - bounds.y : ℚ) : WithTop ℚ) ((bounds.y + bounds.height - p.y : ℚ) : WithTop ℚ))))
    ⊤

end CollisionDetection

namespace NfpAlgorithm

/-- Source `nfpAlgorithm.ts` `computeNFP`: the bounding-box based no-fit
rectangle — box of A expanded by the reference-point offsets of B. -/
def computeNFP (polygonA polygonB : Polygon) : Polygon :=
  if polygonA.length < 3 || polygonB.length < 3 then []
  else
    let bboxA := polyMM polygonA
    let bboxB := polyMM polygonB
    let refB := polygonB.getD 0 ⟨0, 0⟩
    let offsetLeft := refB.x - bboxB.minX
    let offsetRight := bboxB.maxX - refB.x
    let offsetTop := refB.y - bboxB.minY
    let offsetBottom := bboxB.maxY - refB.y
    [⟨bboxA.minX - offsetRight, bboxA.minY - offsetBottom⟩,
     ⟨bboxA.maxX + offsetLeft, bboxA.minY - offsetBottom⟩,
     ⟨bboxA.maxX + offsetLeft, bboxA.maxY + offsetTop⟩,
     ⟨bboxA.minX - offsetRight, bboxA.maxY + offsetTop⟩]

/-- Source `nfpAlgorithm.ts` `computeIFP`: the legacy closed-form rectangular
inner-fit polygon (no degeneracy check). -/
def computeIFP (container : BoundingBox) (polygon : Polygon) : Polygon :=
  if polygon.length < 3 then []
  else
    let polyBBox := polyMM polygon
    let refPoint := polygon.getD 0 ⟨0, 0⟩
    let offsetLeft := refPoint.x - polyBBox.minX
    let offsetRight := polyBBox.maxX - refPoint.x
    let offsetTop := refPoint.y - polyBBox.minY
    let offsetBottom := polyBBox.maxY - refPoint.y
    [⟨container.x + offsetLeft, container.y + offsetTop⟩,
     ⟨container.x + container.width - offsetRight, container.y + offsetTop⟩,
     ⟨container.x + container.width - offsetRight, container.y + container.height - offsetBottom⟩,
     ⟨container.x + offsetLeft, container.y + container.height - offsetBottom⟩]

end NfpAlgorithm

/-- Modelled from the spec: `Math.round` — round half toward positive
infinity, the JavaScript convention. -/
def jsRound (q : ℚ) : ℤ := ⌊q + 1/2⌋

/-- One bisection step of the integer square root: tighten `[lo, hi]` keeping
`lo² ≤ n`. -/
def isqrtStep (n lo hi : ℕ) : ℕ × ℕ :=
  let mid := (lo + hi + 1) / 2
  if mid * mid ≤ n then (mid, hi) else (lo, mid - 1)

/-- Bounded-fuel binary search computing `⌊√n⌋` for `n < (2³² + 1)²` when
started on `[0, 2³²]` with fuel ≥ 33. -/
def isqrtAux : ℕ → ℕ → ℕ → ℕ → ℕ
  | 0, _, lo, _ => lo
  | fuel + 1, n, lo, hi =>
    if hi ≤ lo then lo
    else
      let s := isqrtStep n lo hi
      isqrtAux fuel n s.1 s.2

/-- Modelled from the spec: `Math.sqrt` on doubles.  A monotone rational
approximation — the integer square root of the input at 10⁻¹² resolution
(bounded binary search), hence accurate to about 10⁻⁶ absolute error on the
magnitudes the placers produce; `Math.sqrt` of a negative number is `NaN`
and is never reached by the call sites, rendered here as `0`.  Every theorem
below is insensitive to the approximation error (the value is only compared
against the clamps `1` and `2`, far from the crossover). -/
def jsSqrt (q : ℚ) : ℚ :=
  if q ≤ 0 then 0 else ((isqrtAux 40 (⌊q * 10 ^ 12⌋).toNat 0 (2 ^ 32) : ℚ) / 10 ^ 6)

/-- Modelled from the spec: the JavaScript `%` remainder (truncated division,
sign of the dividend).  `x % 0` is `NaN` in JavaScript and unreachable here
(the divisor is the constant 360); rendered as `0`. -/
def jsMod (a b : ℚ) : ℚ :=
  if b = 0 then 0
  else a - b * ((if a / b < 0 then ⌈a / b⌉ else ⌊a / b⌋ : ℤ) : ℚ)

/-- The shape fingerprint `"p<vertex count>_a<round(100·area)>"` produced by
`getShapeId` in `nfpPlacer.ts` / `geneticAlgorithm.ts`, rendered as its two
numeric components (the string encoding is injective on them). -/
structure ShapeId where
  count : ℕ
  area100 : ℤ
deriving DecidableEq, Repr

namespace NfpGenerator

/-- Source `nfpGenerator.ts`: `const SCALE = 1000`. -/
def SCALE : ℚ := 1000

/-- Integer point of the Clipper kernel's coordinate space. -/
structure IntPoint where
  x : ℤ
  y : ℤ
deriving DecidableEq, Repr

/-- Modelled from the spec: the external Clipper2 boolean/offset kernel
(`js-angusj-clipper`, §4.2), which is not part of this repository.  Each
field models one kernel entry point as an arbitrary total function; `.error`
models a thrown exception, and a `null` result is merged with the empty list
(the sources test `!result || result.length === 0`).  Theorems about the
wrappers quantify over every kernel behaviour. -/
structure ClipperKernel where
  clipUnion : List (List IntPoint) → Except Unit (List (List IntPoint))
  clipDifference : List (List IntPoint) → List (List IntPoint) → Except Unit (List (List IntPoint))
  offsetPaths : ℚ → List (List IntPoint) → Except Unit (List (List IntPoint))
  minkowskiSumPath : List IntPoint → List IntPoint → Except Unit (List (List IntPoint))

/-- Source `nfpGenerator.ts` `toClipperPath`: scale by 1000 and `Math.round`. -/
def toClipperPath (polygon : Polygon) : List IntPoint :=
  polygon.map (fun p => ⟨jsRound (p.x * SCALE), jsRound (p.y * SCALE)⟩)

/-- Source `nfpGenerator.ts` `fromClipperPath`: divide by 1000. -/
def fromClipperPath (path : List IntPoint) : Polygon :=
  path.map (fun p => ⟨(p.x : ℚ) / SCALE, (p.y : ℚ) / SCALE⟩)

/-- Source `nfpGenerator.ts` `negatePolygon`. -/
def negatePolygon (polygon : Polygon) : Polygon :=
  polygon.map (fun p => ⟨-p.x, -p.y⟩)

/-- Source `nfpGenerator.ts` local `translatePolygon` (identical to the
`geometryUtils.ts` one). -/
def translatePolygon (polygon : Polygon) (dx dy : ℚ) : Polygon :=
  GeometryUtils.translatePolygon polygon dx dy

/-- Source `nfpGenerator.ts` `NFPCacheKey`. -/
structure NFPCacheKey where
  shapeAId : ShapeId
  shapeBId : ShapeId
  rotationA : ℚ
  rotationB : ℚ
  inside : Bool
deriving DecidableEq, Repr

/-- The NFP cache `Map` of `nfpGenerator.ts`, rendered as an association
list; `makeCacheKey`'s string serialisation is injective on the key fields,
so keys compare by component equality. -/
abbrev NFPCache := List (NFPCacheKey × List Polygon)

/-- Source `nfpGenerator.ts` `getCachedNFP`. -/
def getCachedNFP (cache : NFPCache) (key : NFPCacheKey) : Option (List Polygon) :=
  (cache.find? (fun e => e.1 = key)).map (fun e => e.2)

/-- Source `nfpGenerator.ts` `setCachedNFP` (`Map.set`; prepending shadows any
older binding). -/
def setCachedNFP (cache : NFPCache) (key : NFPCacheKey) (nfp : List Polygon) : NFPCache :=
  (key, nfp) :: cache

/-- Source `nfpGenerator.ts` `computeNFP`: translate the moving polygon's
reference point to the origin, negate it, and ask the kernel for the
Minkowski sum with the fixed polygon.  `none` kernel = `clipper === null`
(not initialised).  A kernel exception or an empty/null kernel result yields
the empty sequence. -/
def computeNFP (k : Option ClipperKernel) (fixedPolygon movingPolygon : Polygon) : List Polygon :=
  match k with
  | none => []
  | some kk =>
    if fixedPolygon.length < 3 || movingPolygon.length < 3 then []
    else
      let movingCenter := movingPolygon.getD 0 ⟨0, 0⟩
      let centeredMoving := translatePolygon movingPolygon (-movingCenter.x) (-movingCenter.y)
      let negatedMoving := negatePolygon centeredMoving
      let fixedPath := toClipperPath fixedPolygon
      let patternPath := toClipperPath negatedMoving
      match kk.minkowskiSumPath patternPath fixedPath with
      | .error _ => []
      | .ok nfpPaths => if nfpPaths.length = 0 then [] else nfpPaths.map fromClipperPath

/-- Source `nfpGenerator.ts` `unionPolygons`: non-zero-fill union of all the
rings; kernel missing or empty input gives `[]`, a single ring is returned
as-is, and a kernel exception or empty kernel result returns the subject
unchanged. -/
def unionPolygons (k : Option ClipperKernel) (polygons : List Polygon) : List Polygon :=
  match k with
  | none => []
  | some kk =>
    if polygons.length = 0 then []
    else if polygons.length = 1 then polygons
    else
      match kk.clipUnion (polygons.map toClipperPath) with
      | .error _ => polygons
      | .ok result => if result.length = 0 then polygons else result.map fromClipperPath

/-- Source `nfpGenerator.ts` `offsetPolygons`: miter-join closed-polygon
offset by `delta` (scaled by 1000 at the kernel boundary); kernel missing,
empty input or zero delta return the input, and a kernel exception or empty
kernel result returns the subject unchanged. -/
def offsetPolygons (k : Option ClipperKernel) (polygons : List Polygon) (delta : ℚ) : List Polygon :=
  match k with
  | none => polygons
  | some kk =>
    if polygons.length = 0 || delta = 0 then polygons
    else
      let scaledDelta := delta * SCALE
      match kk.offsetPaths scaledDelta (polygons.map toClipperPath) with
      | .error _ => polygons
      | .ok result => if result.length = 0 then polygons else result.map fromClipperPath

/-- Source `nfpGenerator.ts` `differencePolygons`: `subject − clip`; a missing
kernel gives `[]`, an empty clip returns the subject, and a kernel exception
or empty kernel result gives the empty sequence. -/
def differencePolygons (k : Option ClipperKernel) (subject clip : List Polygon) : List Polygon :=
  match k with
  | none => []
  | some kk =>
    if clip.length = 0 then subject
    else
      match kk.clipDifference (subject.map toClipperPath) (clip.map toClipperPath) with
      | .error _ => []
      | .ok result => if result.length = 0 then [] else result.map fromClipperPath

end NfpGenerator

/-- Exact-rational rendering of the JavaScript loop
`for (v = lo; v <= hi; v += step)`: the visited values `lo + k·step` for
`k = 0 … ⌊(hi − lo)/step⌋`.  A non-positive `step` would loop forever in
JavaScript; the call sites clamp their steps to ≥ 1 (placer) or ≥ 2 (GA), and
the embedding returns the empty list in that unreachable case. -/
def gridVals (lo hi step : ℚ) : List ℚ :=
  if 0 < step ∧ lo ≤ hi then
    (List.range ((⌊(hi - lo) / step⌋).toNat + 1)).map (fun k => lo + (k : ℚ) * step)
  else []

namespace NfpPlacer

/-- Source `nfpPlacer.ts` `PlacerConfig` (the `RotationStep` union type is a
plain positive natural here). -/
structure PlacerConfig where
  margin : ℚ
  rotationStep : ℕ
  gridStep : Option ℚ
deriving DecidableEq, Repr

/-- Source `nfpPlacer.ts` `getPolygonBBox` — character-identical to the shared
min/max fold. -/
def getPolygonBBox (polygon : Polygon) : BBoxMM := polyMM polygon

/-- Source `nfpPlacer.ts` `getPolygonArea` (signed shoelace sum over the
closed ring, divided by 2). -/
def getPolygonArea (polygon : Polygon) : ℚ :=
  let n := polygon.length
  ((List.range n).foldl
    (fun area i =>
      let pi := polygon.getD i ⟨0, 0⟩
      let pj := polygon.getD ((i + 1) % n) ⟨0, 0⟩
      area + pi.x * pj.y - pj.x * pi.y)
    0) / 2

/-- Source `nfpPlacer.ts` `getShapeId`: vertex count and `round(100·|area|)`. -/
def getShapeId (polygon : Polygon) : ShapeId :=
  ⟨polygon.length, jsRound (|getPolygonArea polygon| * 100)⟩

/-- Source `nfpPlacer.ts` `computeRectBinIFP`: closed-form inner-fit rectangle
for an axis-aligned bin, empty when degenerate. -/
def computeRectBinIFP (binBounds : BoundingBox) (polygon : Polygon) : Polygon :=
  if polygon.length < 3 then []
  else
    let polyBBox := getPolygonBBox polygon
    let refPoint := polygon.getD 0 ⟨0, 0⟩
    let offsetLeft := refPoint.x - polyBBox.minX
    let offsetRight := polyBBox.maxX - refPoint.x
    let offsetTop := refPoint.y - polyBBox.minY
    let offsetBottom := polyBBox.maxY - refPoint.y
    let ifpMinX := binBounds.x + offsetLeft
    let ifpMaxX := binBounds.x + binBounds.width - offsetRight
    let ifpMinY := binBounds.y + offsetTop
    let ifpMaxY := binBounds.y + binBounds.height - offsetBottom
    if ifpMinX ≥ ifpMaxX ∨ ifpMinY ≥ ifpMaxY then []
    else
      [⟨ifpMinX, ifpMinY⟩, ⟨ifpMaxX, ifpMinY⟩, ⟨ifpMaxX, ifpMaxY⟩, ⟨ifpMinX, ifpMaxY⟩]

/-- Source `nfpPlacer.ts` local `isPointInPolygon` — character-identical copy
of the `collisionDetection.ts` helper (with an explicit `length < 3` guard,
whose value the shared definition also returns on such inputs: the fold makes
no toggle when every index pairing is degenerate — the guard only
short-circuits).  We reuse the shared definition and keep the guard. -/
def isPointInPolygon (point : Point) (polygon : Polygon) : Bool :=
  if polygon.length < 3 then false
  else CollisionDetection.isPointInPolygon point polygon

/-- Source `nfpPlacer.ts` `findValidPositionsInPolygons`: all grid lattice
points of each valid polygon's bounding box that ray-cast inside it, followed
by the polygon's own vertices that ray-cast inside it. -/
def findValidPositionsInPolygons (validPolygons : List Polygon) (gridStep : ℚ) : List Point :=
  validPolygons.foldl
    (fun positions polygon =>
      if polygon.length < 3 then positions
      else
        let mm := polyMM polygon
        let gridPts := (gridVals mm.minY mm.maxY gridStep).flatMap (fun y =>
          (gridVals mm.minX mm.maxX gridStep).filterMap (fun x =>
            if isPointInPolygon ⟨x, y⟩ polygon then some (⟨x, y⟩ : Point) else none))
        let vertexPts := polygon.filter (fun v => isPointInPolygon v polygon)
        positions ++ gridPts ++ vertexPts)
    []

/-- Source `nfpPlacer.ts` `selectBestPosition`: bottom-left rule — minimal
`y`, then minimal `x`, first occurrence kept on exact ties (`reduce` with the
first element as accumulator). -/
def selectBestPosition (positions : List Point) : Option Point :=
  match positions with
  | [] => none
  | p :: rest =>
    some (rest.foldl
      (fun best pos => if pos.y < best.y ∨ (pos.y = best.y ∧ pos.x < best.x) then pos else best)
      p)

/-- Entry of the placer's `placedParts` array: origin-normalised rotated
polygon, committed position, fingerprint and rotation. -/
structure PlacedPart where
  polygon : Polygon
  position : Point
  id : ShapeId
  rotation : ℚ
deriving DecidableEq, Repr

/-- Source `nfpPlacer.ts` `placeSinglePart`: rotate the part, gather the
(cached) NFPs of all placed parts translated to their positions, union them,
expand by the margin, subtract from the bin IFP, and pick the bottom-left
candidate of the remaining area on an adaptive grid.  Returns the chosen
position (if any) together with the updated NFP cache (the source mutates a
module-level `Map`). -/
def placeSinglePart (k : Option NfpGenerator.ClipperKernel) (partPolygon : Polygon)
    (partId : ShapeId) (rotation : ℚ) (binIFP : List Polygon)
    (placedParts : List PlacedPart) (config : PlacerConfig)
    (cache : NfpGenerator.NFPCache) : Option Point × NfpGenerator.NFPCache :=
  let rotatedPart := if rotation = 0 then partPolygon
    else GeometryUtils.normalizePolygonToOrigin
      (GeometryUtils.rotatePolygon partPolygon rotation ⟨0, 0⟩)
  let scan := placedParts.foldl
    (fun (acc : List Polygon × NfpGenerator.NFPCache) placed =>
      let cacheKey : NfpGenerator.NFPCacheKey :=
        ⟨placed.id, partId, placed.rotation, rotation, false⟩
      let hit := NfpGenerator.getCachedNFP acc.2 cacheKey
      let nfpPolygons := match hit with
        | some nfp => nfp
        | none => NfpGenerator.computeNFP k placed.polygon rotatedPart
      let cache2 := match hit with
        | some _ => acc.2
        | none => if nfpPolygons.length > 0
            then NfpGenerator.setCachedNFP acc.2 cacheKey nfpPolygons else acc.2
      (acc.1 ++ nfpPolygons.map (fun nfp =>
         GeometryUtils.translatePolygon nfp placed.position.x placed.position.y), cache2))
    ([], cache)
  let allNFPs := scan.1
  let unionedNFPs := if allNFPs.length > 0 then NfpGenerator.unionPolygons k allNFPs else []
  let expandedNFPs := if unionedNFPs.length > 0
    then NfpGenerator.offsetPolygons k unionedNFPs config.margin else []
  let validArea := if expandedNFPs.length > 0
    then NfpGenerator.differencePolygons k binIFP expandedNFPs else binIFP
  if validArea.length = 0 then (none, scan.2)
  else
    let areaBbox := getPolygonBBox (validArea.headD [])
    let areaSize := (areaBbox.maxX - areaBbox.minX) * (areaBbox.maxY - areaBbox.minY)
    let baseStep := match config.gridStep with
      | some g => if g = 0 then config.margin else g
      | none => config.margin
    -- `estimatedCandidates = areaSize / baseStep²` compared against 1e5; a zero
    -- baseStep gives Infinity (NaN when areaSize is also 0) in JavaScript,
    -- rendered by the explicit case split.
    let gridStep :=
      if baseStep = 0 then (if 0 < areaSize then jsSqrt (areaSize / 100000) else max 1 baseStep)
      else if areaSize / (baseStep * baseStep) > 100000 then jsSqrt (areaSize / 100000)
      else max 1 baseStep
    let candidatePositions := findValidPositionsInPolygons validArea gridStep
    if candidatePositions.length = 0 then (none, scan.2)
    else (selectBestPosition candidatePositions, scan.2)

/-- Loop state of `nestWithNFP`: committed placements, placed parts, the NFP
cache, and the source's `attempts` counter (incremented at the top of every
`while` iteration, so it counts loop iterations). -/
structure PlacerState where
  placements : List Placement
  placedParts : List PlacedPart
  cache : NfpGenerator.NFPCache
  attempts : ℕ
deriving Repr

/-- One rotation of the per-iteration scan of `nestWithNFP`: skip the
rotation when its bin IFP is empty, otherwise ask `placeSinglePart` for a
position and keep the bottom-left winner (strictly better `y`, then strictly
better `x`), threading the NFP cache. -/
def rotScanStep (k : Option NfpGenerator.ClipperKernel) (config : PlacerConfig)
    (effectiveBounds : BoundingBox) (normalizedPart : Polygon) (partId : ShapeId)
    (placedParts : List PlacedPart)
    (acc : Option (Point × ℚ × Polygon) × NfpGenerator.NFPCache) (rotation : ℚ) :
    Option (Point × ℚ × Polygon) × NfpGenerator.NFPCache :=
  let rotatedPart := if rotation = 0 then normalizedPart
    else GeometryUtils.normalizePolygonToOrigin
      (GeometryUtils.rotatePolygon normalizedPart rotation ⟨0, 0⟩)
  let ifpPolygon := computeRectBinIFP effectiveBounds rotatedPart
  if ifpPolygon.length = 0 then acc
  else
    let res := placeSinglePart k normalizedPart partId rotation [ifpPolygon]
      placedParts config acc.2
    match res.1 with
    | none => (acc.1, res.2)
    | some position =>
      match acc.1 with
      | none => (some (position, rotation, rotatedPart), res.2)
      | some best =>
        if position.y < best.1.y ∨ (position.y = best.1.y ∧ position.x < best.1.x)
        then (some (position, rotation, rotatedPart), res.2)
        else (acc.1, res.2)

/-- Body of the `while` loop of `nestWithNFP` (one iteration, after the
`attempts++`): scan every rotation for a candidate, keep the bottom-left
winner, re-validate the rendered polygons (bounds, then collision against the
placed parts' origin-frame polygons translated to their positions) and commit.
`none` renders the `break` when no rotation produced a position. -/
def nestBody (k : Option NfpGenerator.ClipperKernel) (design : Design)
    (paperBounds : BoundingBox) (config : PlacerConfig) (effectiveBounds : BoundingBox)
    (normalizedPart : Polygon) (partId : ShapeId) (rotations : List ℚ)
    (s : PlacerState) : Option PlacerState :=
  let scan := rotations.foldl
    (rotScanStep k config effectiveBounds normalizedPart partId s.placedParts)
    (none, s.cache)
  match scan.1 with
  | none => none
  | some best =>
    let bestPosition := best.1
    let bestRotation := best.2.1
    let bestRotatedPart := best.2.2
    let center : Point := ⟨design.boundingBox.width / 2, design.boundingBox.height / 2⟩
    let transformedPolygons := design.polygons.map (fun poly =>
      GeometryUtils.translatePolygon (GeometryUtils.rotatePolygon poly bestRotation center)
        bestPosition.x bestPosition.y)
    let bbox := GeometryUtils.getPolygonsBoundingBox transformedPolygons
    if bbox.x < config.margin ∨ bbox.y < config.margin ∨
       bbox.x + bbox.width > paperBounds.width - config.margin ∨
       bbox.y + bbox.height > paperBounds.height - config.margin then
      some { s with cache := scan.2 }
    else
      let hasCollision := s.placedParts.any (fun placed =>
        let placedTransformed := GeometryUtils.translatePolygon placed.polygon
          placed.position.x placed.position.y
        transformedPolygons.any (fun poly =>
          CollisionDetection.doPolygonsCollide poly placedTransformed 0))
      if hasCollision then some { s with cache := scan.2 }
      else
        some { placements := s.placements ++
                 [⟨design.id, bestPosition.x, bestPosition.y, jsMod bestRotation 360⟩],
               placedParts := s.placedParts ++
                 [⟨bestRotatedPart, bestPosition, partId, bestRotation⟩],
               cache := scan.2,
               attempts := s.attempts }

/-- The `while (placements.length < maxPlacements && attempts < maxAttempts)`
loop of `nestWithNFP` as fuel recursion; the fuel is initialised to
`maxAttempts`, which together with the `attempts++`-per-iteration exactly
renders the second conjunct of the guard. -/
def nestLoop (k : Option NfpGenerator.ClipperKernel) (design : Design)
    (paperBounds : BoundingBox) (config : PlacerConfig) (effectiveBounds : BoundingBox)
    (normalizedPart : Polygon) (partId : ShapeId) (rotations : List ℚ)
    (maxPlacements : ℤ) : ℕ → PlacerState → PlacerState
  | 0, s => s
  | fuel + 1, s =>
    if (s.placements.length : ℤ) < maxPlacements then
      let s1 : PlacerState := { s with attempts := s.attempts + 1 }
      match nestBody k design paperBounds config effectiveBounds normalizedPart partId
        rotations s1 with
      | none => s1
      | some s2 =>
        nestLoop k design paperBounds config effectiveBounds normalizedPart partId
          rotations maxPlacements fuel s2
    else s

/-- Source `nfpPlacer.ts` `nestWithNFP`, up to the final efficiency
projection: margin-inset bin, main polygon by largest vertex count,
first-vertex origin normalisation, rotation list `0, step, …, < 360`,
estimated placement cap, and the attempt-bounded loop.  Returns the full
final loop state (placements plus the attempts counter used by the
termination claim). -/
def nestWithNFPRun (k : Option NfpGenerator.ClipperKernel) (design : Design)
    (paperBounds : BoundingBox) (config : PlacerConfig) : PlacerState :=
  let effectiveBounds : BoundingBox :=
    ⟨config.margin, config.margin,
     paperBounds.width - 2 * config.margin, paperBounds.height - 2 * config.margin⟩
  let mainPolygon := design.polygons.foldl
    (fun largest poly => if poly.length > largest.length then poly else largest)
    (design.polygons.headD [])
  let normalizedPart := GeometryUtils.normalizePolygonToOrigin mainPolygon
  let partId := getShapeId normalizedPart
  let rotations := (List.range (359 / config.rotationStep + 1)).map
    (fun i => ((i * config.rotationStep : ℕ) : ℚ))
  let maxPlacements : ℤ :=
    ⌈(effectiveBounds.width * effectiveBounds.height) / design.area⌉ + 10
  let maxAttempts : ℤ := maxPlacements * 2
  nestLoop k design paperBounds config effectiveBounds normalizedPart partId rotations
    maxPlacements maxAttempts.toNat ⟨[], [], [], 0⟩

/-- Source `nfpPlacer.ts` `NFPPlacementResult`. -/
structure NFPPlacementResult where
  placements : List Placement
  unplaced : List ℕ
  efficiency : ℚ
deriving Repr

/-- Source `nfpPlacer.ts` `nestWithNFP`: the run above plus the efficiency
figure `round(100·eff)/100`. -/
def nestWithNFP (k : Option NfpGenerator.ClipperKernel) (design : Design)
    (paperBounds : BoundingBox) (config : PlacerConfig) : NFPPlacementResult :=
  let run := nestWithNFPRun k design paperBounds config
  let usedArea := design.area * run.placements.length
  let paperArea := paperBounds.width * paperBounds.height
  let efficiency := usedArea / paperArea * 100
  ⟨run.placements, [], (jsRound (efficiency * 100) : ℚ) / 100⟩

end NfpPlacer

namespace GeneticAlgorithm

/-- Source `geneticAlgorithm.ts` `Gene`. -/
structure Gene where
  rotation : ℚ
deriving DecidableEq, Repr

/-- Source `geneticAlgorithm.ts` `Chromosome`. -/
structure Chromosome where
  genes : List Gene
  order : List ℕ
  fitness : ℤ
deriving DecidableEq, Repr

/-- Source `geneticAlgorithm.ts` `getPolygonBBox` — character-identical to the
shared min/max fold. -/
def getPolygonBBox (polygon : Polygon) : BBoxMM := polyMM polygon

/-- Source `geneticAlgorithm.ts` local `isPointInPolygon` — character-identical
to the `nfpPlacer.ts` copy. -/
def isPointInPolygon (point : Point) (polygon : Polygon) : Bool :=
  NfpPlacer.isPointInPolygon point polygon

/-- Source `geneticAlgorithm.ts` `computeRectBinIFP` — character-identical to
the `nfpPlacer.ts` copy. -/
def computeRectBinIFP (binBounds : BoundingBox) (polygon : Polygon) : Polygon :=
  if polygon.length < 3 then []
  else
    let polyBBox := getPolygonBBox polygon
    let refPoint := polygon.getD 0 ⟨0, 0⟩
    let offsetLeft := refPoint.x - polyBBox.minX
    let offsetRight := polyBBox.maxX - refPoint.x
    let offsetTop := refPoint.y - polyBBox.minY
    let offsetBottom := polyBBox.maxY - refPoint.y
    let ifpMinX := binBounds.x + offsetLeft
    let ifpMaxX := binBounds.x + binBounds.width - offsetRight
    let ifpMinY := binBounds.y + offsetTop
    let ifpMaxY := binBounds.y + binBounds.height - offsetBottom
    if ifpMinX ≥ ifpMaxX ∨ ifpMinY ≥ ifpMaxY then []
    else
      [⟨ifpMinX, ifpMinY⟩, ⟨ifpMaxX, ifpMinY⟩, ⟨ifpMaxX, ifpMaxY⟩, ⟨ifpMinX, ifpMaxY⟩]

/-- Source `geneticAlgorithm.ts` `findBottomLeftPosition`: running bottom-left
best over the grid points and then the vertices of each valid polygon. -/
def findBottomLeftPosition (validArea : List Polygon) (gridStep : ℚ) : Option Point :=
  validArea.foldl
    (fun best polygon =>
      if polygon.length < 3 then best
      else
        let mm := getPolygonBBox polygon
        let best1 := (gridVals mm.minY mm.maxY gridStep).foldl
          (fun best y =>
            (gridVals mm.minX mm.maxX gridStep).foldl
              (fun best x =>
                if isPointInPolygon ⟨x, y⟩ polygon then
                  match best with
                  | none => some (⟨x, y⟩ : Point)
                  | some b =>
                    if y < b.y ∨ (y = b.y ∧ x < b.x) then some (⟨x, y⟩ : Point) else some b
                else best)
              best)
          best
        polygon.foldl
          (fun best vertex =>
            if isPointInPolygon vertex polygon then
              match best with
              | none => some vertex
              | some b =>
                if vertex.y < b.y ∨ (vertex.y = b.y ∧ vertex.x < b.x) then some vertex else some b
            else best)
          best1)
    none

/-- State of the `evaluateFitness` placement loop: committed placements, the
rendered polygons kept for collision re-checks, and the origin-frame
`(polygon, position)` pairs kept for NFP construction. -/
structure EvalState where
  placements : List Placement
  placedRenderedPolygons : List Polygon
  placedParts : List (Polygon × Point)
deriving Repr

/-- Source `geneticAlgorithm.ts` `evaluateFitness` main `for` loop
(`for (i = 0; i < maxPlacements && placements.length < maxPlacements; i++)`)
as fuel recursion with the loop index threaded; `continue` recurses with the
state unchanged, `break` (empty valid area or no bottom-left position)
returns the state.  Unlike the `nfpPlacer.ts` loop this one computes NFPs
uncached and re-checks collisions against the stored *rendered* polygons. -/
def evalLoop (k : Option NfpGenerator.ClipperKernel) (chromosome : Chromosome)
    (normalizedPart : Polygon) (design : Design)
    (effectiveBounds paperBounds : BoundingBox) (margin : ℚ)
    (maxPlacements : ℤ) : ℕ → ℕ → EvalState → EvalState
  | 0, _, s => s
  | fuel + 1, i, s =>
    if (s.placements.length : ℤ) < maxPlacements then
      let geneIdx := i % chromosome.genes.length
      let rotation := (chromosome.genes.getD geneIdx ⟨0⟩).rotation
      let rotatedPart := if rotation = 0 then normalizedPart
        else GeometryUtils.normalizePolygonToOrigin
          (GeometryUtils.rotatePolygon normalizedPart rotation ⟨0, 0⟩)
      let ifpPolygon := computeRectBinIFP effectiveBounds rotatedPart
      if ifpPolygon.length = 0 then
        evalLoop k chromosome normalizedPart design effectiveBounds paperBounds margin
          maxPlacements fuel (i + 1) s
      else
        let binIFP := [ifpPolygon]
        let allNFPs := s.placedParts.flatMap (fun placed =>
          (NfpGenerator.computeNFP k placed.1 rotatedPart).map (fun nfp =>
            GeometryUtils.translatePolygon nfp placed.2.x placed.2.y))
        let unionedNFPs := if allNFPs.length > 0 then NfpGenerator.unionPolygons k allNFPs else []
        let expandedNFPs := if unionedNFPs.length > 0
          then NfpGenerator.offsetPolygons k unionedNFPs margin else []
        let validArea := if expandedNFPs.length > 0
          then NfpGenerator.differencePolygons k binIFP expandedNFPs else binIFP
        if validArea.length = 0 then s
        else
          let areaBbox := getPolygonBBox (validArea.headD [])
          let areaSize := (areaBbox.maxX - areaBbox.minX) * (areaBbox.maxY - areaBbox.minY)
          let gridStep := max 2 (jsSqrt (areaSize / 50000))
          match findBottomLeftPosition validArea gridStep with
          | none => s
          | some position =>
            let designCenter : Point :=
              ⟨design.boundingBox.width / 2, design.boundingBox.height / 2⟩
            let transformedPolygons := design.polygons.map (fun poly =>
              GeometryUtils.translatePolygon
                (GeometryUtils.rotatePolygon poly rotation designCenter) position.x position.y)
            let outOfBounds := transformedPolygons.any (fun poly =>
              let bbox := getPolygonBBox poly
              decide (bbox.minX < margin) || decide (bbox.minY < margin) ||
              decide (bbox.maxX > paperBounds.width - margin) ||
              decide (bbox.maxY > paperBounds.height - margin))
            if outOfBounds then
              evalLoop k chromosome normalizedPart design effectiveBounds paperBounds margin
                maxPlacements fuel (i + 1) s
            else
              let hasCollision := s.placedRenderedPolygons.any (fun placedPoly =>
                transformedPolygons.any (fun poly =>
                  CollisionDetection.doPolygonsCollide poly placedPoly 0))
              if hasCollision then
                evalLoop k chromosome normalizedPart design effectiveBounds paperBounds margin
                  maxPlacements fuel (i + 1) s
              else
                evalLoop k chromosome normalizedPart design effectiveBounds paperBounds margin
                  maxPlacements fuel (i + 1)
                  { placements := s.placements ++
                      [⟨design.id, position.x, position.y, jsMod rotation 360⟩],
                    placedRenderedPolygons := s.placedRenderedPolygons ++ transformedPolygons,
                    placedParts := s.placedParts ++ [(rotatedPart, position)] }
    else s

/-- Result record of `evaluateFitness`. -/
structure FitnessResult where
  fitness : ℕ
  placements : List Placement
deriving Repr

/-- Source `geneticAlgorithm.ts` `evaluateFitness`: the simplified
Bottom-Left-Fill driven by the chromosome's rotation genes; fitness is the
number of committed placements.  (`partId` is accepted and ignored, as in the
source's `_partId`.) -/
def evaluateFitness (k : Option NfpGenerator.ClipperKernel) (chromosome : Chromosome)
    (normalizedPart : Polygon) ( _partId : ShapeId) (design : Design)
    (effectiveBounds paperBounds : BoundingBox) (margin : ℚ) : FitnessResult :=
  let maxPlacements : ℤ :=
    ⌈(effectiveBounds.width * effectiveBounds.height) / design.area⌉ + 10
  let final := evalLoop k chromosome normalizedPart design effectiveBounds paperBounds
    margin maxPlacements maxPlacements.toNat 0 ⟨[], [], []⟩
  ⟨final.placements.length, final.placements⟩

/-- Working state of the Order-Crossover fill loop: the child's order and
gene arrays (`null`/hole entries as `none`) and the cyclic write cursor. -/
structure OxState where
  childOrder : List (Option ℕ)
  childGenes : List (Option Gene)
  pos : ℕ
deriving DecidableEq, Repr

/-- The child arrays right after the segment-copy loop of `orderCrossover`
(`child1Order[i] = parent1.order[i]` for `point1 ≤ i ≤ point2`, `null`/hole
elsewhere), with the fill cursor at `(point2 + 1) % len`. -/
def oxChildInit (p1 : Chromosome) (point1 point2 len : ℕ) : OxState :=
  { childOrder := (List.range len).map (fun i =>
      if point1 ≤ i ∧ i ≤ point2 then some (p1.order.getD i 0) else none),
    childGenes := (List.range len).map (fun i =>
      if point1 ≤ i ∧ i ≤ point2 then some (p1.genes.getD i ⟨0⟩) else none),
    pos := (point2 + 1) % len }

/-- One step of the fill loop of `orderCrossover`: skip a value already
present in the child (`child1Order.includes(val)`), otherwise write the value
and its gene at the cursor and advance the cursor cyclically. -/
def oxStep (len : ℕ) (s : OxState) (vg : ℕ × Gene) : OxState :=
  if s.childOrder.contains (some vg.1) then s
  else
    { childOrder := s.childOrder.set s.pos (some vg.1),
      childGenes := s.childGenes.set s.pos (some vg.2),
      pos := (s.pos + 1) % len }

/-- The scan sequence of the fill loop: the other parent's
`(order[idx], genes[idx])` for `idx = (point2 + 1 + i) % len`, `i = 0 … len−1`. -/
def oxScanList (p2 : Chromosome) (point2 len : ℕ) : List (ℕ × Gene) :=
  (List.range len).map (fun i =>
    let idx := (point2 + 1 + i) % len
    (p2.order.getD idx 0, p2.genes.getD idx ⟨0⟩))

/-- Segment copy plus fill loop producing one Order-Crossover child (the
source repeats this block verbatim with the parents' roles swapped for the
second child). -/
def oxFill (p1 p2 : Chromosome) (point1 point2 : ℕ) : OxState :=
  let len := p1.order.length
  (oxScanList p2 point2 len).foldl (oxStep len) (oxChildInit p1 point1 point2 len)

/-- Source `geneticAlgorithm.ts` `orderCrossover`.  `rand1`/`rand2` stand for
the two `Math.floor(Math.random() * len)` draws; the source then sorts them
(`if (point1 > point2) swap`), which `min`/`max` renders.  The final
`child1Order as number[]` is an unchecked TypeScript cast of a
`(number | null)[]`; claim C9's theorem shows no `null` survives, so reading
residual `none`s as `0` in the cast is value-faithful. -/
def orderCrossover (parent1 parent2 : Chromosome) (rand1 rand2 : ℕ) :
    Chromosome × Chromosome :=
  let point1 := min rand1 rand2
  let point2 := max rand1 rand2
  let c1 := oxFill parent1 parent2 point1 point2
  let c2 := oxFill parent2 parent1 point1 point2
  (⟨c1.childGenes.map (fun g => g.getD ⟨0⟩), c1.childOrder.map (fun o => o.getD 0), 0⟩,
   ⟨c2.childGenes.map (fun g => g.getD ⟨0⟩), c2.childOrder.map (fun o => o.getD 0), 0⟩)

/-- The write branch of `oxStep` in isolation. -/
def insStep (len : ℕ) (s : OxState) (vg : ℕ × Gene) : OxState :=
  { childOrder := s.childOrder.set s.pos (some vg.1),
    childGenes := s.childGenes.set s.pos (some vg.2),
    pos := (s.pos + 1) % len }

/-- Unconditional sequence of writes. -/
def insState (len : ℕ) (s : OxState) (ins : List (ℕ × Gene)) : OxState :=
  ins.foldl (insStep len) s

/-- The state after the segment copy followed by a given sequence of writes. -/
def insRun (p1 : Chromosome) (point1 point2 N : ℕ) (ins : List (ℕ × Gene)) : OxState :=
  insState N (oxChildInit p1 point1 point2 N) ins

/-- Indices of the copied segment. -/
def segIdx (point1 point2 N : ℕ) : List ℕ :=
  (List.range N).filter (fun i => decide (point1 ≤ i ∧ i ≤ point2))

/-- Order values copied from the first parent's segment. -/
def segVals (p1 : Chromosome) (point1 point2 N : ℕ) : List ℕ :=
  (segIdx point1 point2 N).map (fun i => p1.order.getD i 0)

end GeneticAlgorithm

namespace NestingEngine

/-- Source `nestingEngine.ts` `checkMarginWarning`: `true` iff some committed
placement has a rendered polygon (design polygon rotated about the design
bbox centre and translated to the placement position) whose minimum distance
to the sheet edges is below the 3 mm threshold.  (The identical
`checkMarginWarningForPlacements` sets the `warning` flag of every
`NestingResult`.) -/
def checkMarginWarning (design : Design) (placements : List Placement)
    (paperBounds : BoundingBox) ( _margin : ℚ) : Bool :=
  placements.any (fun placement =>
    let center : Point := ⟨design.boundingBox.width / 2, design.boundingBox.height / 2⟩
    design.polygons.any (fun poly =>
      let transformed := GeometryUtils.translatePolygon
        (GeometryUtils.rotatePolygon poly placement.rotation center) placement.x placement.y
      decide (CollisionDetection.getMinDistanceToBounds transformed paperBounds
        < (3 : WithTop ℚ))))

end NestingEngine

/-! Concrete instances used by the closed theorems below. -/

/-- Kernel behaviour exhibiting the `nfpPlacer.ts` frame-mismatch bug (claim
C1): the Minkowski sum degenerates to a single integer point (a NumericEdge
precision outcome the spec's §7 contemplates), union is the identity, and the
difference collapses to empty once two NFP rings accumulate.  All outputs are
legal kernel results; the wrapper code must stay correct under any of them. -/
def bandKernel : NfpGenerator.ClipperKernel :=
  ⟨fun paths => .ok paths,
   fun subj clip => if 2 ≤ clip.length then .ok [] else .ok subj,
   fun _ _ => .ok [],
   fun _ _ => .ok [[⟨0, 0⟩]]⟩

/-- A thin diagonal band (between the lines `x + 3y = 4` and `x + 3y = 6`,
clipped to its `6 × 2` bounding box) whose first vertex `(4, 0)` is far from
the bounding-box minimum — exactly the situation in which the placer's
origin-frame and rendered-frame views of a placement disagree by the offset
`(4, 0)`. -/
def bandDesign : Design :=
  ⟨"band", ⟨0, 0, 6, 2⟩, [[⟨4, 0⟩, ⟨6, 0⟩, ⟨0, 2⟩, ⟨0, 4/3⟩]], 10/3⟩

/-- Sheet for the claim C1 run. -/
def bandSheet : BoundingBox := ⟨0, 0, 10, 5/2⟩

/-- Placer configuration for the claim C1 run: margin 0, 90° rotation step,
grid step 2. -/
def bandConfig : NfpPlacer.PlacerConfig := ⟨0, 90, some 2⟩

/-- The rendered polygon (rotation 0 about the bbox centre `(3, 1)`, then
translation by the committed position `(4, 0)`) of each of the two placements
the claim C1 run commits. -/
def bandRendered : Polygon := [⟨8, 0⟩, ⟨10, 0⟩, ⟨4, 2⟩, ⟨4, 4/3⟩]

/-- Kernel behaviour for the claim C8 run: degenerate one-point Minkowski
sums and an empty difference (NumericEdge outcomes per spec §7). -/
def emptyDiffKernel : NfpGenerator.ClipperKernel :=
  ⟨fun paths => .ok paths, fun _ _ => .ok [], fun _ _ => .ok [], fun _ _ => .ok [[⟨0, 0⟩]]⟩

/-- Unit diamond design for the claim C8 run. -/
def diamondDesign : Design := ⟨"dia", ⟨0, 0, 2, 2⟩, [[⟨1, 0⟩, ⟨2, 1⟩, ⟨1, 2⟩, ⟨0, 1⟩]], 2⟩

/-- Chromosome whose single gene carries rotation 45° — drawn from a GA
configured with `rotationAngles = [45]`, a configuration the spec explicitly
recognises (§6.4, §9 "rotation steps finer than 90°"). -/
def rot45Chromosome : GeneticAlgorithm.Chromosome := ⟨[⟨45⟩], [0], 0⟩

/-- The diamond's main polygon normalised to its first vertex, as `nestWithGA`
prepares it before fitness evaluation. -/
def diamondPart : Polygon :=
  GeometryUtils.normalizePolygonToOrigin [⟨1, 0⟩, ⟨2, 1⟩, ⟨1, 2⟩, ⟨0, 1⟩]

/-- Square sheet (and identical margin-0 effective bounds) for the claim C8
run. -/
def diamondSheet : BoundingBox := ⟨0, 0, 4, 4⟩

/-! Helper lemmas about the min/max corner fold. -/

/-- C9 witness parent 1. -/
def oxWitnessP1 : GeneticAlgorithm.Chromosome :=
  ⟨[⟨0⟩, ⟨90⟩, ⟨180⟩], [0, 1, 2], 0⟩

/-- C9 witness parent 2. -/
def oxWitnessP2 : GeneticAlgorithm.Chromosome :=
  ⟨[⟨270⟩, ⟨0⟩, ⟨90⟩], [2, 0, 1], 0⟩

theorem foldl_mmStep_mono (l : List Point) (b : BBoxMM) :
    (l.foldl mmStep b).minX ≤ b.minX ∧ (l.foldl mmStep b).minY ≤ b.minY ∧
    b.maxX ≤ (l.foldl mmStep b).maxX ∧ b.maxY ≤ (l.foldl mmStep b).maxY := by
  induction l generalizing b with
  | nil => simp
  | cons q t ih =>
    have h := ih (mmStep b q)
    simp only [List.foldl_cons]
    refine ⟨h.1.trans ?_, h.2.1.trans ?_, le_trans ?_ h.2.2.1, le_trans ?_ h.2.2.2⟩ <;>
      simp [mmStep]

theorem foldl_mmStep_mem (l : List Point) (b : BBoxMM) (p : Point) (hp : p ∈ l) :
    (l.foldl mmStep b).minX ≤ p.x ∧ (l.foldl mmStep b).minY ≤ p.y ∧
    p.x ≤ (l.foldl mmStep b).maxX ∧ p.y ≤ (l.foldl mmStep b).maxY := by
  induction l generalizing b with
  | nil => cases hp
  | cons q t ih =>
    simp only [List.foldl_cons]
    rcases List.mem_cons.mp hp with rfl | hpt
    · have h := foldl_mmStep_mono t (mmStep b p)
      refine ⟨h.1.trans ?_, h.2.1.trans ?_, le_trans ?_ h.2.2.1, le_trans ?_ h.2.2.2⟩ <;>
        simp [mmStep]
    · exact ih (mmStep b q) hpt

/-- Every vertex of a polygon lies inside its min/max corner box. -/
theorem polyMM_mem (polygon : Polygon) (p : Point) (hp : p ∈ polygon) :
    (polyMM polygon).minX ≤ p.x ∧ (polyMM polygon).minY ≤ p.y ∧
    p.x ≤ (polyMM polygon).maxX ∧ p.y ≤ (polyMM polygon).maxY := by
  match polygon, hp with
  | q :: t, hp =>
    rcases List.mem_cons.mp hp with rfl | hpt
    · have h := foldl_mmStep_mono t ⟨p.x, p.y, p.x, p.y⟩
      exact ⟨h.1, h.2.1, h.2.2.1, h.2.2.2⟩
    · exact foldl_mmStep_mem t ⟨q.x, q.y, q.x, q.y⟩ p hpt

theorem foldl_mmStep_translate (l : List Point) (b : BBoxMM) (dx dy : ℚ) :
    ((l.map (fun p => (⟨p.x + dx, p.y + dy⟩ : Point))).foldl mmStep
      ⟨b.minX + dx, b.minY + dy, b.maxX + dx, b.maxY + dy⟩) =
    ⟨(l.foldl mmStep b).minX + dx, (l.foldl mmStep b).minY + dy,
     (l.foldl mmStep b).maxX + dx, (l.foldl mmStep b).maxY + dy⟩ := by
  induction l generalizing b with
  | nil => rfl
  | cons q t ih =>
    simp only [List.map_cons, List.foldl_cons]
    rw [show mmStep ⟨b.minX + dx, b.minY + dy, b.maxX + dx, b.maxY + dy⟩
          ⟨q.x + dx, q.y + dy⟩ =
        ⟨(mmStep b q).minX + dx, (mmStep b q).minY + dy,
         (mmStep b q).maxX + dx, (mmStep b q).maxY + dy⟩ from by
      simp [mmStep, min_add_add_right, max_add_add_right]]
    exact ih (mmStep b q)

/-- Translating a nonempty polygon translates its min/max corner box. -/
theorem polyMM_translate (polygon : Polygon) (dx dy : ℚ) (h : polygon ≠ []) :
    polyMM (GeometryUtils.translatePolygon polygon dx dy) =
      ⟨(polyMM polygon).minX + dx, (polyMM polygon).minY + dy,
       (polyMM polygon).maxX + dx, (polyMM polygon).maxY + dy⟩ := by
  match polygon with
  | q :: t =>
    show ((t.map fun p => (⟨p.x + dx, p.y + dy⟩ : Point)).foldl mmStep
      ⟨q.x + dx, q.y + dy, q.x + dx, q.y + dy⟩) = _
    exact foldl_mmStep_translate t ⟨q.x, q.y, q.x, q.y⟩ dx dy

/-- For nonempty input, `getPolygonBoundingBox` is the corner fold written as
an `(x, y, width, height)` record. -/
theorem getPolygonBoundingBox_eq (polygon : Polygon) (h : polygon ≠ []) :
    GeometryUtils.getPolygonBoundingBox polygon =
      ⟨(polyMM polygon).minX, (polyMM polygon).minY,
       (polyMM polygon).maxX - (polyMM polygon).minX,
       (polyMM polygon).maxY - (polyMM polygon).minY⟩ := by
  match polygon with
  | q :: t => rfl

/-- C4 (amended): provided the two polygons' bounding boxes overlap (margin
0), the collision oracle at margin 0 coincides with the exact
segment-intersection + ray-cast containment check — i.e. it returns `true`
iff some edge of A intersects some edge of B (collinear overlaps included) or
either polygon's first vertex lies ray-cast inside the other.  The original
claim omits the bounding-box proviso; `C4_counterexample` shows it is needed
because the prefilter discards touching boxes (`≤`, not `<`). -/
theorem C4_margin0_oracle_iff_sat (A B : Polygon) (hA : 3 ≤ A.length) (hB : 3 ≤ B.length)
    (hbb : GeometryUtils.doBoundingBoxesOverlap (GeometryUtils.getPolygonBoundingBox A)
      (GeometryUtils.getPolygonBoundingBox B) 0 = true) :
    CollisionDetection.doPolygonsCollide A B 0 = CollisionDetection.satCollisionCheck A B := by
  unfold CollisionDetection.doPolygonsCollide
  simp [hbb]

/-- C4 (counterexample): two triangles sharing the single vertex `(1, 0)`.
The edge test reports an (endpoint-touching, collinear) intersection, so the
claim's right-hand side holds, but the bounding boxes touch without
overlapping, so `doPolygonsCollide` answers `false`: the claimed equivalence
fails as stated. -/
theorem C4_counterexample :
    CollisionDetection.doPolygonsCollide [⟨0, 0⟩, ⟨1, 0⟩, ⟨0, 1⟩]
      [⟨1, 0⟩, ⟨2, 0⟩, ⟨1, 1⟩] 0 = false ∧
    CollisionDetection.satCollisionCheck [⟨0, 0⟩, ⟨1, 0⟩, ⟨0, 1⟩]
      [⟨1, 0⟩, ⟨2, 0⟩, ⟨1, 1⟩] = true :=
  ⟨by with_unfolding_all rfl, by with_unfolding_all rfl⟩

/-- C4 (witness): the amended theorem applied to two overlapping triangles. -/
theorem C4_margin0_oracle_iff_sat_witness :
    CollisionDetection.doPolygonsCollide [⟨0, 0⟩, ⟨2, 0⟩, ⟨0, 2⟩] [⟨1, 1⟩, ⟨3, 1⟩, ⟨1, 3⟩] 0 =
      CollisionDetection.satCollisionCheck [⟨0, 0⟩, ⟨2, 0⟩, ⟨0, 2⟩] [⟨1, 1⟩, ⟨3, 1⟩, ⟨1, 3⟩] :=
  C4_margin0_oracle_iff_sat [⟨0, 0⟩, ⟨2, 0⟩, ⟨0, 2⟩] [⟨1, 1⟩, ⟨3, 1⟩, ⟨1, 3⟩]
    (by simp) (by simp) (by with_unfolding_all rfl)

/-- C6: the margin-warning flag of a nesting result is `true` iff some
committed placement has a rendered polygon (design polygon rotated about the
design bbox centre, translated to the placement position) whose minimum
distance to the sheet rectangle's edges is strictly below 3 mm. -/
theorem C6_warning_iff_close_placement (design : Design) (placements : List Placement)
    (paperBounds : BoundingBox) (margin : ℚ) :
    NestingEngine.checkMarginWarning design placements paperBounds margin = true ↔
    ∃ placement ∈ placements, ∃ poly ∈ design.polygons,
      CollisionDetection.getMinDistanceToBounds
        (GeometryUtils.translatePolygon
          (GeometryUtils.rotatePolygon poly placement.rotation
            ⟨design.boundingBox.width / 2, design.boundingBox.height / 2⟩)
          placement.x placement.y) paperBounds < 3 := by
  unfold NestingEngine.checkMarginWarning
  simp [List.any_eq_true]

/-- C10: whenever the placer's closed-form rectangular inner-fit computation
returns a non-empty rectangle, the legacy `computeIFP` of `nfpAlgorithm.ts`
returns exactly the same four vertices in the same order (and the
`geneticAlgorithm.ts` copy of `computeRectBinIFP` agrees with the placer's on
all inputs). -/
theorem C10_rect_ifp_implementations_agree (bin : BoundingBox) (polygon : Polygon)
    (h : NfpPlacer.computeRectBinIFP bin polygon ≠ []) :
    NfpAlgorithm.computeIFP bin polygon = NfpPlacer.computeRectBinIFP bin polygon ∧
    GeneticAlgorithm.computeRectBinIFP bin polygon = NfpPlacer.computeRectBinIFP bin polygon := by
  refine ⟨?_, rfl⟩
  unfold NfpPlacer.computeRectBinIFP at h ⊢
  unfold NfpAlgorithm.computeIFP
  by_cases hl : polygon.length < 3
  · simp [hl] at h
  · simp only [hl, if_false] at h ⊢
    split at h
    · exact absurd rfl h
    · next hc => rw [if_neg hc]; exact rfl

/-- C10 (witness): both implementations on a concrete triangle in a 10 × 10
bin. -/
theorem C10_rect_ifp_implementations_agree_witness :
    NfpAlgorithm.computeIFP ⟨0, 0, 10, 10⟩ [⟨0, 0⟩, ⟨2, 0⟩, ⟨0, 2⟩] =
      NfpPlacer.computeRectBinIFP ⟨0, 0, 10, 10⟩ [⟨0, 0⟩, ⟨2, 0⟩, ⟨0, 2⟩] :=
  (C10_rect_ifp_implementations_agree ⟨0, 0, 10, 10⟩ [⟨0, 0⟩, ⟨2, 0⟩, ⟨0, 2⟩]
    (by
      have hx : NfpPlacer.computeRectBinIFP ⟨0, 0, 10, 10⟩ [⟨0, 0⟩, ⟨2, 0⟩, ⟨0, 2⟩] =
          [⟨0, 0⟩, ⟨8, 0⟩, ⟨8, 8⟩, ⟨0, 8⟩] := by with_unfolding_all rfl
      rw [hx]; simp)).1

/-- C7: the polygon boolean wrappers return their safe defaults whenever the
kernel call they issue throws (`.error`) or comes back empty: `unionPolygons`
and `offsetPolygons` return the subject list unchanged, while
`differencePolygons` (premise: it actually calls the kernel, i.e. the clip
list is nonempty) and `computeNFP` return the empty sequence.  The embedded
wrappers are total functions, which renders "never throw through to the
caller". -/
theorem C7_kernel_failures_yield_safe_defaults (k : NfpGenerator.ClipperKernel) :
    (∀ polygons : List Polygon,
      (k.clipUnion (polygons.map NfpGenerator.toClipperPath) = .error () ∨
       k.clipUnion (polygons.map NfpGenerator.toClipperPath) = .ok []) →
      NfpGenerator.unionPolygons (some k) polygons = polygons) ∧
    (∀ (polygons : List Polygon) (delta : ℚ),
      (k.offsetPaths (delta * NfpGenerator.SCALE) (polygons.map NfpGenerator.toClipperPath)
          = .error () ∨
       k.offsetPaths (delta * NfpGenerator.SCALE) (polygons.map NfpGenerator.toClipperPath)
          = .ok []) →
      NfpGenerator.offsetPolygons (some k) polygons delta = polygons) ∧
    (∀ subject clip : List Polygon, clip ≠ [] →
      (k.clipDifference (subject.map NfpGenerator.toClipperPath)
          (clip.map NfpGenerator.toClipperPath) = .error () ∨
       k.clipDifference (subject.map NfpGenerator.toClipperPath)
          (clip.map NfpGenerator.toClipperPath) = .ok []) →
      NfpGenerator.differencePolygons (some k) subject clip = []) ∧
    (∀ fixedPolygon movingPolygon : Polygon,
      (k.minkowskiSumPath
          (NfpGenerator.toClipperPath (NfpGenerator.negatePolygon
            (NfpGenerator.translatePolygon movingPolygon
              (-(movingPolygon.getD 0 ⟨0, 0⟩).x) (-(movingPolygon.getD 0 ⟨0, 0⟩).y))))
          (NfpGenerator.toClipperPath fixedPolygon) = .error () ∨
       k.minkowskiSumPath
          (NfpGenerator.toClipperPath (NfpGenerator.negatePolygon
            (NfpGenerator.translatePolygon movingPolygon
              (-(movingPolygon.getD 0 ⟨0, 0⟩).x) (-(movingPolygon.getD 0 ⟨0, 0⟩).y))))
          (NfpGenerator.toClipperPath fixedPolygon) = .ok []) →
      NfpGenerator.computeNFP (some k) fixedPolygon movingPolygon = []) := by
  refine ⟨?_, ?_, ?_, ?_⟩
  · intro polygons hk
    unfold NfpGenerator.unionPolygons
    by_cases h0 : polygons.length = 0
    · simp [h0, List.length_eq_zero.mp h0]
    · by_cases h1 : polygons.length = 1
      · simp [h0, h1]
      · simp only [h0, h1, if_false]
        rcases hk with hk | hk <;> rw [hk] <;> simp
  · intro polygons delta hk
    unfold NfpGenerator.offsetPolygons
    by_cases h0 : polygons.length = 0 ∨ delta = 0
    · rcases h0 with h0 | h0
      · simp [h0]
      · simp [h0]
    · push_neg at h0
      rcases hk with hk | hk <;> simp [h0.1, h0.2, hk]
  · intro subject clip hc hk
    unfold NfpGenerator.differencePolygons
    have hc0 : ¬clip.length = 0 := fun h => hc (List.length_eq_zero.mp h)
    simp only [hc0, if_false]
    rcases hk with hk | hk <;> rw [hk] <;> simp
  · intro fixedPolygon movingPolygon hk
    unfold NfpGenerator.computeNFP
    by_cases hl : fixedPolygon.length < 3 ∨ movingPolygon.length < 3
    · rcases hl with hl | hl <;> simp [hl]
    · push_neg at hl
      simp only [decide_eq_true_eq, Bool.or_eq_true, not_lt.mpr hl.1, not_lt.mpr hl.2,
        decide_False, Bool.or_self, Bool.false_eq_true, if_false]
      rcases hk with hk | hk <;> rw [hk] <;> simp

/-- C7 (witness): a kernel that throws on everything, exercised on each of
the four wrappers at concrete inputs. -/
theorem C7_kernel_failures_yield_safe_defaults_witness :
    NfpGenerator.unionPolygons
      (some ⟨fun _ => .error (), fun _ _ => .error (), fun _ _ => .error (),
             fun _ _ => .error ()⟩)
      [[⟨0, 0⟩, ⟨1, 0⟩, ⟨0, 1⟩], [⟨2, 2⟩, ⟨3, 2⟩, ⟨2, 3⟩]] =
      [[⟨0, 0⟩, ⟨1, 0⟩, ⟨0, 1⟩], [⟨2, 2⟩, ⟨3, 2⟩, ⟨2, 3⟩]] ∧
    NfpGenerator.differencePolygons
      (some ⟨fun _ => .error (), fun _ _ => .error (), fun _ _ => .error (),
             fun _ _ => .error ()⟩)
      [[⟨0, 0⟩, ⟨1, 0⟩, ⟨0, 1⟩]] [[⟨2, 2⟩, ⟨3, 2⟩, ⟨2, 3⟩]] = [] :=
  ⟨(C7_kernel_failures_yield_safe_defaults _).1 _ (Or.inl rfl),
   (C7_kernel_failures_yield_safe_defaults _).2.2.1 _ _ (by simp) (Or.inl rfl)⟩

/-- C2 (amended): for the bounding-box based `computeNFP` of
`nfpAlgorithm.ts`, placing `B[0]` strictly outside the returned NFP rectangle
(whose bottom-left and top-right corners are its vertices 0 and 2) makes `A`
and the placed `B` disjoint — the exact margin-0 collision oracle returns
`false`, already at its bounding-box prefilter; placing `B[0]` strictly
inside the rectangle makes the bounding boxes of `A` and the placed `B`
overlap.  The original claim's stronger "interior point ⇒ the polygons
themselves intersect" is false (`C2_counterexample`): this NFP is built from
bounding boxes only. -/
theorem C2_nfp_bbox_contract (A B : Polygon) (hA : 3 ≤ A.length) (hB : 3 ≤ B.length) :
    (∀ p : Point,
      (p.x < ((NfpAlgorithm.computeNFP A B).getD 0 ⟨0, 0⟩).x ∨
       ((NfpAlgorithm.computeNFP A B).getD 2 ⟨0, 0⟩).x < p.x ∨
       p.y < ((NfpAlgorithm.computeNFP A B).getD 0 ⟨0, 0⟩).y ∨
       ((NfpAlgorithm.computeNFP A B).getD 2 ⟨0, 0⟩).y < p.y) →
      CollisionDetection.doPolygonsCollide A
        (GeometryUtils.translatePolygon B (p.x - (B.getD 0 ⟨0, 0⟩).x)
          (p.y - (B.getD 0 ⟨0, 0⟩).y)) 0 = false) ∧
    (∀ p : Point,
      (((NfpAlgorithm.computeNFP A B).getD 0 ⟨0, 0⟩).x < p.x ∧
       p.x < ((NfpAlgorithm.computeNFP A B).getD 2 ⟨0, 0⟩).x ∧
       ((NfpAlgorithm.computeNFP A B).getD 0 ⟨0, 0⟩).y < p.y ∧
       p.y < ((NfpAlgorithm.computeNFP A B).getD 2 ⟨0, 0⟩).y) →
      GeometryUtils.doBoundingBoxesOverlap (GeometryUtils.getPolygonBoundingBox A)
        (GeometryUtils.getPolygonBoundingBox
          (GeometryUtils.translatePolygon B (p.x - (B.getD 0 ⟨0, 0⟩).x)
            (p.y - (B.getD 0 ⟨0, 0⟩).y))) 0 = true) := by
  have hA0 : A ≠ [] := by intro h; rw [h] at hA; simp at hA
  have hB0 : B ≠ [] := by intro h; rw [h] at hB; simp at hB
  have h1 : ¬A.length < 3 := not_lt.mpr hA
  have h2 : ¬B.length < 3 := not_lt.mpr hB
  have hnfp : NfpAlgorithm.computeNFP A B =
      [⟨(polyMM A).minX - ((polyMM B).maxX - (B.getD 0 ⟨0, 0⟩).x),
        (polyMM A).minY - ((polyMM B).maxY - (B.getD 0 ⟨0, 0⟩).y)⟩,
       ⟨(polyMM A).maxX + ((B.getD 0 ⟨0, 0⟩).x - (polyMM B).minX),
        (polyMM A).minY - ((polyMM B).maxY - (B.getD 0 ⟨0, 0⟩).y)⟩,
       ⟨(polyMM A).maxX + ((B.getD 0 ⟨0, 0⟩).x - (polyMM B).minX),
        (polyMM A).maxY + ((B.getD 0 ⟨0, 0⟩).y - (polyMM B).minY)⟩,
       ⟨(polyMM A).minX - ((polyMM B).maxX - (B.getD 0 ⟨0, 0⟩).x),
        (polyMM A).maxY + ((B.getD 0 ⟨0, 0⟩).y - (polyMM B).minY)⟩] := by
    unfold NfpAlgorithm.computeNFP
    simp [h1, h2]
  have htrB : ∀ p : Point,
      GeometryUtils.translatePolygon B (p.x - (B.getD 0 ⟨0, 0⟩).x)
        (p.y - (B.getD 0 ⟨0, 0⟩).y) ≠ [] := by
    intro p h
    exact hB0 (List.map_eq_nil.mp h)
  have hbbA := getPolygonBoundingBox_eq A hA0
  constructor
  · intro p hout
    have hbbB := getPolygonBoundingBox_eq _ (htrB p)
    have hmmB := polyMM_translate B (p.x - (B.getD 0 ⟨0, 0⟩).x)
      (p.y - (B.getD 0 ⟨0, 0⟩).y) hB0
    have hover : GeometryUtils.doBoundingBoxesOverlap (GeometryUtils.getPolygonBoundingBox A)
        (GeometryUtils.getPolygonBoundingBox
          (GeometryUtils.translatePolygon B (p.x - (B.getD 0 ⟨0, 0⟩).x)
            (p.y - (B.getD 0 ⟨0, 0⟩).y))) 0 = false := by
      rw [hbbA, hbbB, hmmB]
      unfold GeometryUtils.doBoundingBoxesOverlap
      simp only [Bool.not_eq_false', Bool.or_eq_true, decide_eq_true_eq]
      rw [hnfp] at hout
      simp only [List.getD_cons_zero, List.getD_cons_succ] at hout
      rcases hout with h | h | h | h
      · exact Or.inl (Or.inl (Or.inr (by linarith)))
      · exact Or.inl (Or.inl (Or.inl (by linarith)))
      · exact Or.inr (by linarith)
      · exact Or.inl (Or.inr (by linarith))
    simp only [CollisionDetection.doPolygonsCollide]
    rw [hover]
    rfl
  · intro p hin
    have hbbB := getPolygonBoundingBox_eq _ (htrB p)
    have hmmB := polyMM_translate B (p.x - (B.getD 0 ⟨0, 0⟩).x)
      (p.y - (B.getD 0 ⟨0, 0⟩).y) hB0
    rw [hbbA, hbbB, hmmB]
    unfold GeometryUtils.doBoundingBoxesOverlap
    simp only [Bool.not_eq_true', Bool.or_eq_false_iff, decide_eq_false_iff_not, not_le]
    rw [hnfp] at hin
    simp only [List.getD_cons_zero, List.getD_cons_succ] at hin
    obtain ⟨i1, i2, i3, i4⟩ := hin
    refine ⟨⟨⟨by linarith, by linarith⟩, by linarith⟩, by linarith⟩

/-- C2 (counterexample): `A` the right triangle with legs 10, `B` the unit
right triangle with `B[0] = (0, 0)`.  The returned NFP is the rectangle
`[-1, 10] × [-1, 10]`; the probe `(9, 9)` is strictly interior to it, yet
placing `B[0]` at `(9, 9)` leaves `A` and the placed `B` disjoint — the exact
margin-0 oracle (edge intersections + mutual ray-cast containment, with the
bounding boxes overlapping, so the prefilter does not decide) returns
`false`.  This refutes "interior point of the NFP ⇒ non-empty
intersection". -/
theorem C2_counterexample :
    NfpAlgorithm.computeNFP [⟨0, 0⟩, ⟨10, 0⟩, ⟨0, 10⟩] [⟨0, 0⟩, ⟨1, 0⟩, ⟨0, 1⟩] =
      [⟨-1, -1⟩, ⟨10, -1⟩, ⟨10, 10⟩, ⟨-1, 10⟩] ∧
    ((-1 : ℚ) < 9 ∧ (9 : ℚ) < 10) ∧
    GeometryUtils.doBoundingBoxesOverlap
      (GeometryUtils.getPolygonBoundingBox [⟨0, 0⟩, ⟨10, 0⟩, ⟨0, 10⟩])
      (GeometryUtils.getPolygonBoundingBox
        (GeometryUtils.translatePolygon [⟨0, 0⟩, ⟨1, 0⟩, ⟨0, 1⟩] 9 9)) 0 = true ∧
    CollisionDetection.doPolygonsCollide [⟨0, 0⟩, ⟨10, 0⟩, ⟨0, 10⟩]
      (GeometryUtils.translatePolygon [⟨0, 0⟩, ⟨1, 0⟩, ⟨0, 1⟩] 9 9) 0 = false :=
  ⟨by with_unfolding_all rfl, ⟨by norm_num, by norm_num⟩,
   by with_unfolding_all rfl, by with_unfolding_all rfl⟩

/-- C2 (witness): the amended theorem's disjointness half at a probe far to
the right of the NFP of two concrete triangles. -/
theorem C2_nfp_bbox_contract_witness :
    CollisionDetection.doPolygonsCollide [⟨0, 0⟩, ⟨10, 0⟩, ⟨0, 10⟩]
      (GeometryUtils.translatePolygon [⟨0, 0⟩, ⟨1, 0⟩, ⟨0, 1⟩] 100 0) 0 = false := by
  have h := (C2_nfp_bbox_contract [⟨0, 0⟩, ⟨10, 0⟩, ⟨0, 10⟩] [⟨0, 0⟩, ⟨1, 0⟩, ⟨0, 1⟩]
    (by simp) (by simp)).1 ⟨100, 0⟩
    (by right; left; with_unfolding_all rfl)
  simpa using h

/-- C3: the placer's rectangular inner-fit computation returns exactly the
axis-aligned rectangle `[bx+oL, bx+bw−oR] × [by+oT, by+bh−oB]` (listed
bottom-left, bottom-right, top-right, top-left) unless it is degenerate, in
which case it returns the empty sequence; and whenever `B[0]` is placed at
any point `q` of the returned rectangle (its vertices 0 and 2 are the
bottom-left and top-right corners), the correspondingly translated `B` lies
entirely inside the bin. -/
theorem C3_rect_ifp_sound (bin : BoundingBox) (B : Polygon) (hB : 3 ≤ B.length) :
    (NfpPlacer.computeRectBinIFP bin B =
      if bin.x + ((B.getD 0 ⟨0, 0⟩).x - (polyMM B).minX) ≥
           bin.x + bin.width - ((polyMM B).maxX - (B.getD 0 ⟨0, 0⟩).x) ∨
         bin.y + ((B.getD 0 ⟨0, 0⟩).y - (polyMM B).minY) ≥
           bin.y + bin.height - ((polyMM B).maxY - (B.getD 0 ⟨0, 0⟩).y)
      then []
      else
        [⟨bin.x + ((B.getD 0 ⟨0, 0⟩).x - (polyMM B).minX),
          bin.y + ((B.getD 0 ⟨0, 0⟩).y - (polyMM B).minY)⟩,
         ⟨bin.x + bin.width - ((polyMM B).maxX - (B.getD 0 ⟨0, 0⟩).x),
          bin.y + ((B.getD 0 ⟨0, 0⟩).y - (polyMM B).minY)⟩,
         ⟨bin.x + bin.width - ((polyMM B).maxX - (B.getD 0 ⟨0, 0⟩).x),
          bin.y + bin.height - ((polyMM B).maxY - (B.getD 0 ⟨0, 0⟩).y)⟩,
         ⟨bin.x + ((B.getD 0 ⟨0, 0⟩).x - (polyMM B).minX),
          bin.y + bin.height - ((polyMM B).maxY - (B.getD 0 ⟨0, 0⟩).y)⟩]) ∧
    (∀ q : Point, NfpPlacer.computeRectBinIFP bin B ≠ [] →
      ((NfpPlacer.computeRectBinIFP bin B).getD 0 ⟨0, 0⟩).x ≤ q.x ∧
      q.x ≤ ((NfpPlacer.computeRectBinIFP bin B).getD 2 ⟨0, 0⟩).x ∧
      ((NfpPlacer.computeRectBinIFP bin B).getD 0 ⟨0, 0⟩).y ≤ q.y ∧
      q.y ≤ ((NfpPlacer.computeRectBinIFP bin B).getD 2 ⟨0, 0⟩).y →
      ∀ r ∈ GeometryUtils.translatePolygon B (q.x - (B.getD 0 ⟨0, 0⟩).x)
        (q.y - (B.getD 0 ⟨0, 0⟩).y),
        bin.x ≤ r.x ∧ r.x ≤ bin.x + bin.width ∧ bin.y ≤ r.y ∧ r.y ≤ bin.y + bin.height) := by
  have hl : ¬B.length < 3 := not_lt.mpr hB
  constructor
  · unfold NfpPlacer.computeRectBinIFP
    simp only [hl, if_false, NfpPlacer.getPolygonBBox]
  · intro q hne hq r hr
    have hifp : NfpPlacer.computeRectBinIFP bin B =
        [⟨bin.x + ((B.getD 0 ⟨0, 0⟩).x - (polyMM B).minX),
          bin.y + ((B.getD 0 ⟨0, 0⟩).y - (polyMM B).minY)⟩,
         ⟨bin.x + bin.width - ((polyMM B).maxX - (B.getD 0 ⟨0, 0⟩).x),
          bin.y + ((B.getD 0 ⟨0, 0⟩).y - (polyMM B).minY)⟩,
         ⟨bin.x + bin.width - ((polyMM B).maxX - (B.getD 0 ⟨0, 0⟩).x),
          bin.y + bin.height - ((polyMM B).maxY - (B.getD 0 ⟨0, 0⟩).y)⟩,
         ⟨bin.x + ((B.getD 0 ⟨0, 0⟩).x - (polyMM B).minX),
          bin.y + bin.height - ((polyMM B).maxY - (B.getD 0 ⟨0, 0⟩).y)⟩] := by
      unfold NfpPlacer.computeRectBinIFP at hne ⊢
      simp only [hl, if_false, NfpPlacer.getPolygonBBox] at hne ⊢
      split at hne
      · exact absurd rfl hne
      · next hc => rw [if_neg hc]
    rw [hifp] at hq
    simp only [List.getD_cons_zero, List.getD_cons_succ] at hq
    obtain ⟨s, hs, rfl⟩ := List.mem_map.mp hr
    obtain ⟨hq1, hq2, hq3, hq4⟩ := hq
    obtain ⟨hs1, hs2, hs3, hs4⟩ := polyMM_mem B s hs
    refine ⟨?_, ?_, ?_, ?_⟩
    · show bin.x ≤ s.x + (q.x - (B.getD 0 ⟨0, 0⟩).x)
      linarith
    · show s.x + (q.x - (B.getD 0 ⟨0, 0⟩).x) ≤ bin.x + bin.width
      linarith
    · show bin.y ≤ s.y + (q.y - (B.getD 0 ⟨0, 0⟩).y)
      linarith
    · show s.y + (q.y - (B.getD 0 ⟨0, 0⟩).y) ≤ bin.y + bin.height
      linarith

/-- C3 (witness): the theorem at a concrete bin, triangle and interior point
`(3, 4)`, checked on the translate of the triangle's reference vertex. -/
theorem C3_rect_ifp_sound_witness :
    (0 : ℚ) ≤ 3 ∧ (3 : ℚ) ≤ 0 + 10 ∧ (0 : ℚ) ≤ 4 ∧ (4 : ℚ) ≤ 0 + 10 := by
  have hifp : NfpPlacer.computeRectBinIFP ⟨0, 0, 10, 10⟩ [⟨0, 0⟩, ⟨2, 0⟩, ⟨0, 2⟩] =
      [⟨0, 0⟩, ⟨8, 0⟩, ⟨8, 8⟩, ⟨0, 8⟩] := by with_unfolding_all rfl
  have htr : GeometryUtils.translatePolygon [(⟨0, 0⟩ : Point), ⟨2, 0⟩, ⟨0, 2⟩]
      ((3 : ℚ) - (([(⟨0, 0⟩ : Point), ⟨2, 0⟩, ⟨0, 2⟩].getD 0 ⟨0, 0⟩).x))
      ((4 : ℚ) - (([(⟨0, 0⟩ : Point), ⟨2, 0⟩, ⟨0, 2⟩].getD 0 ⟨0, 0⟩).y)) =
      [⟨3, 4⟩, ⟨5, 4⟩, ⟨3, 6⟩] := by with_unfolding_all rfl
  have h := (C3_rect_ifp_sound ⟨0, 0, 10, 10⟩ [⟨0, 0⟩, ⟨2, 0⟩, ⟨0, 2⟩] (by simp)).2
    ⟨3, 4⟩ (by rw [hifp]; simp)
    (by rw [hifp]; refine ⟨?_, ?_, ?_, ?_⟩ <;> norm_num)
    ⟨3, 4⟩ (by rw [htr]; simp)
  simpa using h

set_option maxRecDepth 8000

/-- C1 (code bug, failing input): `nestWithNFP` validates each candidate's
*rendered* polygons only against the *origin-frame* polygons of the already
placed parts (`placedTransformed` in `nfpPlacer.ts` is
`translate(placed.polygon, position)`, not the rendered reconstruction),
whereas the spec — and the GA's `evaluateFitness`, which stores
`placedRenderedPolygons` — require the re-check in the rendered frame.  On
`bandDesign` (first vertex `(4, 0)` away from the bbox minimum, so the two
frames disagree by `(4, 0)`) with margin 0, rotation step 90°, grid step 2
under `bandKernel`, the run commits the same position `(4, 0)` twice: the
mismatched check compares the new rendered band (between `x + 3y = 8` and
`x + 3y = 10`) with the origin-frame band (between `4` and `6`) and sees no
contact.  The two committed placements have identical rendered polygon sets,
and the margin-0 collision oracle reports them as overlapping — the claimed
invariant fails on the engine's own output. -/
theorem C1_nestWithNFP_commits_overlapping_rendered_placements :
    (NfpPlacer.nestWithNFPRun (some bandKernel) bandDesign bandSheet bandConfig).placements =
      [⟨"band", 4, 0, 0⟩, ⟨"band", 4, 0, 0⟩] ∧
    bandDesign.polygons.map (fun poly =>
      GeometryUtils.translatePolygon
        (GeometryUtils.rotatePolygon poly 0
          ⟨bandDesign.boundingBox.width / 2, bandDesign.boundingBox.height / 2⟩) 4 0) =
      [bandRendered] ∧
    CollisionDetection.doPolygonsCollide bandRendered bandRendered 0 = true :=
  ⟨by with_unfolding_all rfl, by with_unfolding_all rfl, by with_unfolding_all rfl⟩

/-- C8 (code bug, failing input): committed placements do not quantise the
rotation to `{0, 90, 180, 270}`: the source stores `rotation % 360` behind an
unchecked TypeScript `as 0 | 90 | 180 | 270` cast.  A fitness evaluation with
the recognised configuration `rotationAngles = [45]` (spec §6.4 allows any
angle set; §9 discusses steps finer than 90°) commits a placement whose
rotation field is 45, violating both the claim and the `Placement` type's
own declaration. -/
theorem C8_rotation45_slips_through_cast :
    (GeneticAlgorithm.evaluateFitness (some emptyDiffKernel) rot45Chromosome diamondPart
        ⟨4, 200⟩ diamondDesign diamondSheet diamondSheet 0).placements =
      [⟨"dia", 7071/5000, 0, 45⟩] ∧
    (45 : ℚ) ∉ ([0, 90, 180, 270] : List ℚ) :=
  ⟨by with_unfolding_all rfl, by norm_num⟩

/-! Lemmas supporting the loop-bound claim C5. -/

theorem getD_zero_mem {α : Type} (l : List α) (h : l ≠ []) (d : α) : l.getD 0 d ∈ l := by
  match l with
  | a :: t => simp [List.getD]

/-- With a bin whose width or height is non-positive, the rectangular IFP is
always empty (the reference-point offsets are non-negative). -/
theorem computeRectBinIFP_of_degenerate_bin (bin : BoundingBox) (polygon : Polygon)
    (h : bin.width ≤ 0 ∨ bin.height ≤ 0) : NfpPlacer.computeRectBinIFP bin polygon = [] := by
  unfold NfpPlacer.computeRectBinIFP
  by_cases hl : polygon.length < 3
  · simp [hl]
  · have hne : polygon ≠ [] := by
      intro he; rw [he] at hl; simp at hl
    have hm := polyMM_mem polygon (polygon.getD 0 ⟨0, 0⟩) (getD_zero_mem polygon hne ⟨0, 0⟩)
    simp only [hl, if_false, NfpPlacer.getPolygonBBox]
    have hc : bin.x + ((polygon.getD 0 ⟨0, 0⟩).x - (polyMM polygon).minX) ≥
        bin.x + bin.width - ((polyMM polygon).maxX - (polygon.getD 0 ⟨0, 0⟩).x) ∨
        bin.y + ((polygon.getD 0 ⟨0, 0⟩).y - (polyMM polygon).minY) ≥
        bin.y + bin.height - ((polyMM polygon).maxY - (polygon.getD 0 ⟨0, 0⟩).y) := by
      rcases h with h | h
      · exact Or.inl (by have h1 := hm.1; have h2 := hm.2.2.1; linarith)
      · exact Or.inr (by have h1 := hm.2.1; have h2 := hm.2.2.2; linarith)
    rw [if_pos hc]

/-- If every rotation's IFP is empty the scan yields no candidate and the
body reports `break`. -/
theorem nestBody_none_of_ifp_empty (k : Option NfpGenerator.ClipperKernel) (design : Design)
    (paperBounds : BoundingBox) (config : NfpPlacer.PlacerConfig) (effectiveBounds : BoundingBox)
    (normalizedPart : Polygon) (partId : ShapeId) (rotations : List ℚ) (s : NfpPlacer.PlacerState)
    (h : ∀ polygon : Polygon, NfpPlacer.computeRectBinIFP effectiveBounds polygon = []) :
    NfpPlacer.nestBody k design paperBounds config effectiveBounds normalizedPart partId
      rotations s = none := by
  have hfold : ∀ (rots : List ℚ) (cache : NfpGenerator.NFPCache),
      rots.foldl (NfpPlacer.rotScanStep k config effectiveBounds normalizedPart partId
        s.placedParts) (none, cache) = (none, cache) := by
    intro rots
    induction rots with
    | nil => intro cache; rfl
    | cons r t ih =>
      intro cache
      have hstep : NfpPlacer.rotScanStep k config effectiveBounds normalizedPart partId
          s.placedParts (none, cache) r = (none, cache) := by
        simp [NfpPlacer.rotScanStep, h]
      simp only [List.foldl_cons, hstep]
      exact ih cache
  unfold NfpPlacer.nestBody
  rw [hfold]

/-- A successful body step preserves the attempts counter and commits at most
one placement. -/
theorem nestBody_some_shape (k : Option NfpGenerator.ClipperKernel) (design : Design)
    (paperBounds : BoundingBox) (config : NfpPlacer.PlacerConfig) (effectiveBounds : BoundingBox)
    (normalizedPart : Polygon) (partId : ShapeId) (rotations : List ℚ)
    (s s' : NfpPlacer.PlacerState)
    (h : NfpPlacer.nestBody k design paperBounds config effectiveBounds normalizedPart partId
      rotations s = some s') :
    s'.attempts = s.attempts ∧ s'.placements.length ≤ s.placements.length + 1 := by
  simp only [NfpPlacer.nestBody] at h
  split at h
  · exact absurd h (by simp)
  · split_ifs at h <;> (simp only [Option.some.injEq] at h; subst h; simp)

/-- The loop runs at most `fuel` iterations, each incrementing `attempts` by
exactly one. -/
theorem nestLoop_attempts_le (k : Option NfpGenerator.ClipperKernel) (design : Design)
    (paperBounds : BoundingBox) (config : NfpPlacer.PlacerConfig) (effectiveBounds : BoundingBox)
    (normalizedPart : Polygon) (partId : ShapeId) (rotations : List ℚ) (maxPlacements : ℤ) :
    ∀ (fuel : ℕ) (s : NfpPlacer.PlacerState),
      (NfpPlacer.nestLoop k design paperBounds config effectiveBounds normalizedPart partId
        rotations maxPlacements fuel s).attempts ≤ s.attempts + fuel := by
  intro fuel
  induction fuel with
  | zero => intro s; simp [NfpPlacer.nestLoop]
  | succ f ih =>
    intro s
    rw [NfpPlacer.nestLoop]
    split
    · rcases hbody : NfpPlacer.nestBody k design paperBounds config effectiveBounds
        normalizedPart partId rotations { s with attempts := s.attempts + 1 } with _ | s2
      · simp only [hbody]
        omega
      · simp only [hbody]
        have h2 := (nestBody_some_shape k design paperBounds config effectiveBounds
          normalizedPart partId rotations _ s2 hbody).1
        have h3 := ih s2
        simp only [h2] at h3 ⊢
        omega
    · omega

/-- The loop never grows the placement list beyond the cap. -/
theorem nestLoop_length_le (k : Option NfpGenerator.ClipperKernel) (design : Design)
    (paperBounds : BoundingBox) (config : NfpPlacer.PlacerConfig) (effectiveBounds : BoundingBox)
    (normalizedPart : Polygon) (partId : ShapeId) (rotations : List ℚ) (maxPlacements : ℤ) :
    ∀ (fuel : ℕ) (s : NfpPlacer.PlacerState),
      ((NfpPlacer.nestLoop k design paperBounds config effectiveBounds normalizedPart partId
        rotations maxPlacements fuel s).placements.length : ℤ) ≤
      max (s.placements.length : ℤ) maxPlacements := by
  intro fuel
  induction fuel with
  | zero => intro s; simp [NfpPlacer.nestLoop]
  | succ f ih =>
    intro s
    rw [NfpPlacer.nestLoop]
    split
    · next hguard =>
      rcases hbody : NfpPlacer.nestBody k design paperBounds config effectiveBounds
        normalizedPart partId rotations { s with attempts := s.attempts + 1 } with _ | s2
      · simp only [hbody]
        exact le_max_left _ _
      · simp only [hbody]
        have h2 := (nestBody_some_shape k design paperBounds config effectiveBounds
          normalizedPart partId rotations _ s2 hbody).2
        have h3 := ih s2
        have h4 : (s2.placements.length : ℤ) ≤ maxPlacements := by
          simp only at h2
          omega
        calc ((NfpPlacer.nestLoop k design paperBounds config effectiveBounds normalizedPart
                partId rotations maxPlacements f s2).placements.length : ℤ)
            ≤ max (s2.placements.length : ℤ) maxPlacements := h3
          _ = maxPlacements := max_eq_right h4
          _ ≤ max (s.placements.length : ℤ) maxPlacements := le_max_right _ _
    · exact le_max_left _ _

/-- C5: for a design of strictly positive area, a sheet with non-negative
dimensions and a non-negative margin (the recognised configuration range,
§6.4), the `nestWithNFP` loop executes at most
`2·(⌈sheetArea/design.area⌉ + 10)` iterations (the `attempts` counter is
incremented once at the top of every iteration) and returns at most
`⌈sheetArea/design.area⌉ + 10` placements — regardless of the kernel's
behaviour. -/
theorem C5_nestWithNFP_iterations_bounded (k : Option NfpGenerator.ClipperKernel)
    (design : Design) (paperBounds : BoundingBox) (config : NfpPlacer.PlacerConfig)
    (hA : 0 < design.area) (hm : 0 ≤ config.margin)
    (hw : 0 ≤ paperBounds.width) (hh : 0 ≤ paperBounds.height) :
    ((NfpPlacer.nestWithNFPRun k design paperBounds config).attempts : ℤ) ≤
      2 * (⌈paperBounds.width * paperBounds.height / design.area⌉ + 10) ∧
    ((NfpPlacer.nestWithNFPRun k design paperBounds config).placements.length : ℤ) ≤
      ⌈paperBounds.width * paperBounds.height / design.area⌉ + 10 := by
  have hclaim0 : 0 ≤ ⌈paperBounds.width * paperBounds.height / design.area⌉ := by
    apply Int.ceil_nonneg
    positivity
  have hkey : NfpPlacer.nestWithNFPRun k design paperBounds config =
      NfpPlacer.nestLoop k design paperBounds config
        ⟨config.margin, config.margin, paperBounds.width - 2 * config.margin,
         paperBounds.height - 2 * config.margin⟩
        (GeometryUtils.normalizePolygonToOrigin
          (design.polygons.foldl
            (fun largest poly => if poly.length > largest.length then poly else largest)
            (design.polygons.headD [])))
        (NfpPlacer.getShapeId (GeometryUtils.normalizePolygonToOrigin
          (design.polygons.foldl
            (fun largest poly => if poly.length > largest.length then poly else largest)
            (design.polygons.headD []))))
        ((List.range (359 / config.rotationStep + 1)).map
          (fun i => ((i * config.rotationStep : ℕ) : ℚ)))
        (⌈(paperBounds.width - 2 * config.margin) *
          (paperBounds.height - 2 * config.margin) / design.area⌉ + 10)
        ((⌈(paperBounds.width - 2 * config.margin) *
          (paperBounds.height - 2 * config.margin) / design.area⌉ + 10) * 2).toNat
        ⟨[], [], [], 0⟩ := rfl
  rw [hkey]
  by_cases hpos : 0 < paperBounds.width - 2 * config.margin ∧
      0 < paperBounds.height - 2 * config.margin
  · -- the effective area is at most the sheet area, so the source's own cap
    -- is at most the claimed cap
    have harea : (paperBounds.width - 2 * config.margin) *
        (paperBounds.height - 2 * config.margin) ≤
        paperBounds.width * paperBounds.height := by nlinarith [hpos.1, hpos.2]
    have hceil : ⌈(paperBounds.width - 2 * config.margin) *
        (paperBounds.height - 2 * config.margin) / design.area⌉ ≤
        ⌈paperBounds.width * paperBounds.height / design.area⌉ :=
      Int.ceil_le_ceil (div_le_div_of_nonneg_right harea hA.le)
    have hcode0 : 0 ≤ ⌈(paperBounds.width - 2 * config.margin) *
        (paperBounds.height - 2 * config.margin) / design.area⌉ := by
      apply Int.ceil_nonneg
      exact div_nonneg (by nlinarith [hpos.1, hpos.2]) hA.le
    constructor
    · have h1 := nestLoop_attempts_le k design paperBounds config
        ⟨config.margin, config.margin, paperBounds.width - 2 * config.margin,
         paperBounds.height - 2 * config.margin⟩
        (GeometryUtils.normalizePolygonToOrigin
          (design.polygons.foldl
            (fun largest poly => if poly.length > largest.length then poly else largest)
            (design.polygons.headD [])))
        (NfpPlacer.getShapeId (GeometryUtils.normalizePolygonToOrigin
          (design.polygons.foldl
            (fun largest poly => if poly.length > largest.length then poly else largest)
            (design.polygons.headD []))))
        ((List.range (359 / config.rotationStep + 1)).map
          (fun i => ((i * config.rotationStep : ℕ) : ℚ)))
        (⌈(paperBounds.width - 2 * config.margin) *
          (paperBounds.height - 2 * config.margin) / design.area⌉ + 10)
        ((⌈(paperBounds.width - 2 * config.margin) *
          (paperBounds.height - 2 * config.margin) / design.area⌉ + 10) * 2).toNat
        ⟨[], [], [], 0⟩
      have h2 : (((⌈(paperBounds.width - 2 * config.margin) *
          (paperBounds.height - 2 * config.margin) / design.area⌉ + 10) * 2).toNat : ℤ) =
          (⌈(paperBounds.width - 2 * config.margin) *
          (paperBounds.height - 2 * config.margin) / design.area⌉ + 10) * 2 := by
        rw [Int.toNat_of_nonneg]
        omega
      have hs0 : (⟨[], [], [], 0⟩ : NfpPlacer.PlacerState).attempts = 0 := rfl
      omega
    · have h1 := nestLoop_length_le k design paperBounds config
        ⟨config.margin, config.margin, paperBounds.width - 2 * config.margin,
         paperBounds.height - 2 * config.margin⟩
        (GeometryUtils.normalizePolygonToOrigin
          (design.polygons.foldl
            (fun largest poly => if poly.length > largest.length then poly else largest)
            (design.polygons.headD [])))
        (NfpPlacer.getShapeId (GeometryUtils.normalizePolygonToOrigin
          (design.polygons.foldl
            (fun largest poly => if poly.length > largest.length then poly else largest)
            (design.polygons.headD []))))
        ((List.range (359 / config.rotationStep + 1)).map
          (fun i => ((i * config.rotationStep : ℕ) : ℚ)))
        (⌈(paperBounds.width - 2 * config.margin) *
          (paperBounds.height - 2 * config.margin) / design.area⌉ + 10)
        ((⌈(paperBounds.width - 2 * config.margin) *
          (paperBounds.height - 2 * config.margin) / design.area⌉ + 10) * 2).toNat
        ⟨[], [], [], 0⟩
      simp only [List.length_nil, Nat.cast_zero] at h1
      have h2 : max (0 : ℤ) (⌈(paperBounds.width - 2 * config.margin) *
          (paperBounds.height - 2 * config.margin) / design.area⌉ + 10) =
          ⌈(paperBounds.width - 2 * config.margin) *
          (paperBounds.height - 2 * config.margin) / design.area⌉ + 10 :=
        max_eq_right (by omega)
      omega
  · -- degenerate effective bounds: every IFP is empty and the loop breaks in
    -- its first iteration
    have hdeg : (⟨config.margin, config.margin, paperBounds.width - 2 * config.margin,
        paperBounds.height - 2 * config.margin⟩ : BoundingBox).width ≤ 0 ∨
        (⟨config.margin, config.margin, paperBounds.width - 2 * config.margin,
        paperBounds.height - 2 * config.margin⟩ : BoundingBox).height ≤ 0 := by
      rcases not_and_or.mp hpos with h | h
      · exact Or.inl (by simpa using not_lt.mp h)
      · exact Or.inr (by simpa using not_lt.mp h)
    have hifp := fun polygon => computeRectBinIFP_of_degenerate_bin _ polygon hdeg
    have hbody : ∀ s : NfpPlacer.PlacerState,
        NfpPlacer.nestBody k design paperBounds config
          ⟨config.margin, config.margin, paperBounds.width - 2 * config.margin,
           paperBounds.height - 2 * config.margin⟩
          (GeometryUtils.normalizePolygonToOrigin
            (design.polygons.foldl
              (fun largest poly => if poly.length > largest.length then poly else largest)
              (design.polygons.headD [])))
          (NfpPlacer.getShapeId (GeometryUtils.normalizePolygonToOrigin
            (design.polygons.foldl
              (fun largest poly => if poly.length > largest.length then poly else largest)
              (design.polygons.headD []))))
          ((List.range (359 / config.rotationStep + 1)).map
            (fun i => ((i * config.rotationStep : ℕ) : ℚ)))
          s = none :=
      fun s => nestBody_none_of_ifp_empty k design paperBounds config _ _ _ _ s hifp
    rcases ((⌈(paperBounds.width - 2 * config.margin) *
        (paperBounds.height - 2 * config.margin) / design.area⌉ + 10) * 2).toNat
        with _ | f
    · simp only [NfpPlacer.nestLoop]
      constructor <;> simp <;> omega
    · rw [NfpPlacer.nestLoop]
      split
      · simp only [hbody]
        constructor <;> simp <;> omega
      · constructor <;> simp <;> omega

/-- Witness for C5 at a concrete design, sheet and configuration. -/
theorem C5_nestWithNFP_iterations_bounded_witness :
    ((NfpPlacer.nestWithNFPRun none bandDesign bandSheet bandConfig).attempts : ℤ) ≤
      2 * (⌈bandSheet.width * bandSheet.height / bandDesign.area⌉ + 10) ∧
    ((NfpPlacer.nestWithNFPRun none bandDesign bandSheet bandConfig).placements.length : ℤ) ≤
      ⌈bandSheet.width * bandSheet.height / bandDesign.area⌉ + 10 :=
  C5_nestWithNFP_iterations_bounded none bandDesign bandSheet bandConfig
    (by norm_num [bandDesign]) (by norm_num [bandConfig])
    (by norm_num [bandSheet]) (by norm_num [bandSheet])

open GeneticAlgorithm

-- ============ small generic lemmas ============

theorem filterMap_ifMap {α β : Type} (l : List α) (p : α → Prop) [DecidablePred p]
    (f : α → β) :
    (l.map (fun a => if p a then some (f a) else none)).filterMap id =
      (l.filter (fun a => decide (p a))).map f := by
  induction l with
  | nil => rfl
  | cons a t ih =>
    by_cases h : p a <;> simp [h, ih]

theorem length_filter_range_min (N a b : ℕ) :
    ((List.range N).filter (fun i => decide (a ≤ i ∧ i ≤ b))).length = min (b + 1) N - a := by
  induction N with
  | zero => simp
  | succ n ih =>
    rw [List.range_succ, List.filter_append, List.length_append, ih]
    by_cases h : a ≤ n ∧ n ≤ b <;> simp [h] <;> omega

theorem mod_two_cases (q N : ℕ) (hN : 0 < N) (h : q < 2 * N) :
    q % N = if q < N then q else q - N := by
  split
  · next h1 => exact Nat.mod_eq_of_lt h1
  · next h1 =>
    rw [Nat.mod_eq_sub_mod (by omega)]
    exact Nat.mod_eq_of_lt (by omega)

theorem slot_inj (N c j j' : ℕ) (hN : 0 < N) (hj : j < N) (hj' : j' < N) (hne : j ≠ j') :
    (c + j) % N ≠ (c + j') % N := by
  have h1 : (c % N + j) % N = (c + j) % N := Nat.mod_add_mod c N j
  have h2 : (c % N + j') % N = (c + j') % N := Nat.mod_add_mod c N j'
  rw [← h1, ← h2]
  have hc : c % N < N := Nat.mod_lt _ hN
  rw [mod_two_cases (c % N + j) N hN (by omega), mod_two_cases (c % N + j') N hN (by omega)]
  split <;> split <;> omega

theorem slot_not_in_seg (N point1 point2 j : ℕ) (hN : 0 < N) (h12 : point1 ≤ point2)
    (h2N : point2 < N) (hj : j < N - (point2 + 1 - point1)) :
    ¬(point1 ≤ (point2 + 1 + j) % N ∧ (point2 + 1 + j) % N ≤ point2) := by
  rw [mod_two_cases _ _ hN (by omega)]
  split <;> omega

theorem set_none_filterMap {α : Type} (l : List (Option α)) (i : ℕ) (v : α)
    (h : l[i]? = some none) :
    ((l.set i (some v)).filterMap id).Perm (v :: l.filterMap id) := by
  induction l generalizing i with
  | nil => simp at h
  | cons a t ih =>
    cases i with
    | zero =>
      simp only [List.getElem?_cons_zero, Option.some.injEq] at h
      subst h
      simp
    | succ n =>
      simp only [List.getElem?_cons_succ] at h
      rw [List.set_cons_succ]
      cases a with
      | none => simpa using ih n h
      | some b =>
        simp only [List.filterMap_cons, id]
        refine (List.Perm.cons b (ih n h)).trans ?_
        exact List.Perm.swap v b _

theorem all_isSome_of_filterMap_length {α : Type} (l : List (Option α))
    (h : (l.filterMap id).length = l.length) : ∀ x ∈ l, x.isSome := by
  induction l with
  | nil => simp
  | cons a t ih =>
    cases a with
    | none =>
      exfalso
      simp only [List.filterMap_cons, id, List.length_cons] at h
      have := List.length_filterMap_le id t
      omega
    | some b =>
      simp only [List.filterMap_cons, id, List.length_cons, Nat.add_right_cancel_iff] at h
      intro x hx
      rcases List.mem_cons.mp hx with rfl | hx
      · rfl
      · exact ih h x hx

theorem map_getD_of_all_isSome {α : Type} (l : List (Option α)) (d : α)
    (h : ∀ x ∈ l, x.isSome) : l.map (fun o => o.getD d) = l.filterMap id := by
  induction l with
  | nil => rfl
  | cons a t ih =>
    cases a with
    | none => exact absurd (h none (List.mem_cons_self _ _)) (by simp)
    | some b =>
      simp only [List.map_cons, List.filterMap_cons, id, Option.getD_some]
      rw [ih (fun x hx => h x (List.mem_cons_of_mem _ hx))]

theorem map_getD_range {α : Type} (l : List α) (d : α) :
    (List.range l.length).map (fun i => l.getD i d) = l := by
  apply List.ext_getElem
  · simp
  · intro i h1 h2
    simp only [List.getElem_map, List.getElem_range]
    rw [List.getD_eq_getElem]

theorem insRun_spec (p1 : Chromosome) (N point1 point2 : ℕ)
    (hN : 0 < N) (h12 : point1 ≤ point2) (h2N : point2 < N) (ins : List (ℕ × Gene))
    (hins : ins.length ≤ N - (point2 + 1 - point1)) :
    (insRun p1 point1 point2 N ins).pos = (point2 + 1 + ins.length) % N ∧
    (insRun p1 point1 point2 N ins).childOrder.length = N ∧
    (insRun p1 point1 point2 N ins).childGenes.length = N ∧
    (∀ j, ins.length ≤ j → j < N - (point2 + 1 - point1) →
      (insRun p1 point1 point2 N ins).childOrder[(point2 + 1 + j) % N]? = some none ∧
      (insRun p1 point1 point2 N ins).childGenes[(point2 + 1 + j) % N]? = some none) ∧
    ((insRun p1 point1 point2 N ins).childOrder.filterMap id).Perm
      (segVals p1 point1 point2 N ++ ins.map Prod.fst) ∧
    ((insRun p1 point1 point2 N ins).childGenes.filterMap id).length =
      (segIdx point1 point2 N).length + ins.length := by
  induction ins using List.reverseRecOn with
  | nil =>
    refine ⟨by simp [insRun, insState, oxChildInit], by simp [insRun, insState, oxChildInit],
      by simp [insRun, insState, oxChildInit], ?_, ?_, ?_⟩
    · intro j _ hj
      have hlt : (point2 + 1 + j) % N < N := Nat.mod_lt _ hN
      have hseg := slot_not_in_seg N point1 point2 j hN h12 h2N hj
      constructor <;>
        simp [insRun, insState, oxChildInit, List.getElem?_map, List.getElem?_range, hlt, hseg]
    · simp only [insRun, insState, List.foldl_nil, oxChildInit, List.map_nil, List.append_nil]
      rw [filterMap_ifMap (List.range N) (fun i => point1 ≤ i ∧ i ≤ point2)
        (fun i => p1.order.getD i 0)]
      exact List.Perm.refl _
    · simp only [insRun, insState, List.foldl_nil, oxChildInit, List.length_nil, Nat.add_zero]
      rw [filterMap_ifMap (List.range N) (fun i => point1 ≤ i ∧ i ≤ point2)
        (fun i => p1.genes.getD i ⟨0⟩)]
      simp [segIdx]
  | append_singleton l x ih =>
    have hl : l.length ≤ N - (point2 + 1 - point1) := by
      simp only [List.length_append, List.length_singleton] at hins
      omega
    have hk : l.length < N - (point2 + 1 - point1) := by
      simp only [List.length_append, List.length_singleton] at hins
      omega
    obtain ⟨hpos, holen, hglen, hslots, hperm, hgcount⟩ := ih hl
    have hstep : insRun p1 point1 point2 N (l ++ [x]) =
        insStep N (insRun p1 point1 point2 N l) x := by
      simp [insRun, insState, List.foldl_append]
    have hfree_le : N - (point2 + 1 - point1) ≤ N := by omega
    have hslotk := hslots l.length le_rfl hk
    have hposlt : (point2 + 1 + l.length) % N < N := Nat.mod_lt _ hN
    rw [hstep]
    refine ⟨?_, ?_, ?_, ?_, ?_, ?_⟩
    · simp only [insStep, hpos]
      rw [Nat.mod_add_mod]
      simp only [List.length_append, List.length_singleton]
      congr 1
    · simp [insStep, holen]
    · simp [insStep, hglen]
    · intro j hj1 hj2
      simp only [List.length_append, List.length_singleton] at hj1
      have hne : (point2 + 1 + l.length) % N ≠ (point2 + 1 + j) % N :=
        slot_inj N (point2 + 1) l.length j hN (by omega) (by omega) (by omega)
      have h1 := (hslots j (by omega) hj2).1
      have h2 := (hslots j (by omega) hj2).2
      constructor
      · simp only [insStep, hpos]
        rw [List.getElem?_set_ne hne]
        exact h1
      · simp only [insStep, hpos]
        rw [List.getElem?_set_ne hne]
        exact h2
    · simp only [insStep, hpos]
      refine (set_none_filterMap _ _ _ hslotk.1).trans ?_
      refine (List.Perm.cons x.1 hperm).trans ?_
      simp only [List.map_append, List.map_cons, List.map_nil]
      rw [← List.append_assoc]
      exact (List.perm_append_singleton _ _).symm
    · simp only [insStep, hpos]
      have := (set_none_filterMap _ _ x.2 hslotk.2).length_eq
      simp only [List.length_cons] at this
      simp only [List.length_append, List.length_singleton]
      omega

theorem segIdx_length (point1 point2 N : ℕ) (h12 : point1 ≤ point2) (h2N : point2 < N) :
    (segIdx point1 point2 N).length = point2 + 1 - point1 := by
  rw [segIdx, length_filter_range_min]
  omega

theorem segVals_length (p1 : Chromosome) (point1 point2 N : ℕ)
    (h12 : point1 ≤ point2) (h2N : point2 < N) :
    (segVals p1 point1 point2 N).length = point2 + 1 - point1 := by
  rw [segVals, List.length_map, segIdx_length point1 point2 N h12 h2N]

theorem order_length (p : Chromosome) (N : ℕ) (h : p.order.Perm (List.range N)) :
    p.order.length = N := by
  rw [h.length_eq, List.length_range]

theorem segVals_nodup (p1 : Chromosome) (point1 point2 N : ℕ)
    (h1 : p1.order.Perm (List.range N)) :
    (segVals p1 point1 point2 N).Nodup := by
  have hnd : p1.order.Nodup := h1.nodup_iff.mpr (List.nodup_range N)
  have hlen : p1.order.length = N := order_length p1 N h1
  have hidx : (segIdx point1 point2 N).Nodup := (List.nodup_range N).filter _
  refine List.Nodup.map_on ?_ hidx
  intro i hi i' hi' heq
  have hiN : i < N := by
    have := List.mem_filter.mp hi
    exact List.mem_range.mp this.1
  have hiN' : i' < N := by
    have := List.mem_filter.mp hi'
    exact List.mem_range.mp this.1
  rw [List.getD_eq_getElem p1.order 0 (show i < p1.order.length by omega),
    List.getD_eq_getElem p1.order 0 (show i' < p1.order.length by omega)] at heq
  have hinj := List.nodup_iff_injective_get.mp hnd
  have := hinj (show p1.order.get ⟨i, by omega⟩ = p1.order.get ⟨i', by omega⟩ from
    by simpa using heq)
  simpa using this

theorem segVals_lt (p1 : Chromosome) (point1 point2 N : ℕ)
    (h1 : p1.order.Perm (List.range N)) :
    ∀ v ∈ segVals p1 point1 point2 N, v < N := by
  intro v hv
  have hlen : p1.order.length = N := order_length p1 N h1
  obtain ⟨i, hi, rfl⟩ := List.mem_map.mp hv
  have hiN : i < N := List.mem_range.mp (List.mem_filter.mp hi).1
  rw [List.getD_eq_getElem p1.order 0 (by omega)]
  have : p1.order[i] ∈ p1.order := List.getElem_mem _
  exact List.mem_range.mp (h1.mem_iff.mp this)

theorem filtered_le_free (p1 : Chromosome) (point1 point2 N : ℕ)
    (h12 : point1 ≤ point2) (h2N : point2 < N) (h1 : p1.order.Perm (List.range N))
    (vs : List ℕ) (hnd : vs.Nodup) (hlt : ∀ v ∈ vs, v < N) :
    (vs.filter (fun v => decide (v ∉ segVals p1 point1 point2 N))).length ≤
      N - (point2 + 1 - point1) := by
  set A := vs.filter (fun v => decide (v ∉ segVals p1 point1 point2 N)) with hA
  have hAnd : A.Nodup := hnd.filter _
  have hsub : A.toFinset ⊆ Finset.range N \ (segVals p1 point1 point2 N).toFinset := by
    intro v hv
    rw [List.mem_toFinset] at hv
    have hmem := List.mem_filter.mp hv
    rw [Finset.mem_sdiff, Finset.mem_range, List.mem_toFinset]
    exact ⟨hlt v hmem.1, by simpa using hmem.2⟩
  have hcard : A.toFinset.card = A.length := List.toFinset_card_of_nodup hAnd
  have hsegsub : (segVals p1 point1 point2 N).toFinset ⊆ Finset.range N := by
    intro v hv
    rw [List.mem_toFinset] at hv
    exact Finset.mem_range.mpr (segVals_lt p1 point1 point2 N h1 v hv)
  have hsegcard : (segVals p1 point1 point2 N).toFinset.card = point2 + 1 - point1 := by
    rw [List.toFinset_card_of_nodup (segVals_nodup p1 point1 point2 N h1)]
    exact segVals_length p1 point1 point2 N h12 h2N
  have := Finset.card_le_card hsub
  rw [Finset.card_sdiff hsegsub, Finset.card_range, hsegcard, hcard] at this
  omega

theorem filtered_map_fst (p1 : Chromosome) (point1 point2 N : ℕ) (l : List (ℕ × Gene)) :
    (l.filter (fun vg => decide (vg.1 ∉ segVals p1 point1 point2 N))).map Prod.fst =
      (l.map Prod.fst).filter (fun v => decide (v ∉ segVals p1 point1 point2 N)) := by
  rw [List.filter_map]
  rfl

theorem oxStep_skip (len : ℕ) (s : OxState) (vg : ℕ × Gene)
    (h : s.childOrder.contains (some vg.1) = true) : oxStep len s vg = s := by
  have hm : some vg.1 ∈ s.childOrder := by simpa [List.contains_eq_any_beq] using h
  simp [oxStep, hm]

theorem oxStep_write (len : ℕ) (s : OxState) (vg : ℕ × Gene)
    (h : ¬s.childOrder.contains (some vg.1) = true) : oxStep len s vg = insStep len s vg := by
  have hm : some vg.1 ∉ s.childOrder := by simpa [List.contains_eq_any_beq] using h
  simp [oxStep, insStep, hm]

theorem insRun_append_singleton (p1 : Chromosome) (point1 point2 N : ℕ)
    (F : List (ℕ × Gene)) (x : ℕ × Gene) :
    insRun p1 point1 point2 N (F ++ [x]) = insStep N (insRun p1 point1 point2 N F) x := by
  simp [insRun, insState, List.foldl_append]

theorem oxFold_eq (p1 : Chromosome) (N point1 point2 : ℕ)
    (hN : 0 < N) (h12 : point1 ≤ point2) (h2N : point2 < N)
    (h1 : p1.order.Perm (List.range N)) :
    ∀ pre : List (ℕ × Gene), (pre.map Prod.fst).Nodup →
      (∀ v ∈ pre.map Prod.fst, v < N) →
      pre.foldl (oxStep N) (oxChildInit p1 point1 point2 N) =
        insRun p1 point1 point2 N
          (pre.filter (fun vg => decide (vg.1 ∉ segVals p1 point1 point2 N))) := by
  intro pre
  induction pre using List.reverseRecOn with
  | nil => intro _ _; rfl
  | append_singleton l x ih =>
    intro hnd hlt
    have hnd' : (l.map Prod.fst).Nodup := by
      simp only [List.map_append, List.map_cons, List.map_nil] at hnd
      exact (List.nodup_append.mp hnd).1
    have hxl : x.1 ∉ l.map Prod.fst := by
      simp only [List.map_append, List.map_cons, List.map_nil] at hnd
      have hdisj := (List.nodup_append.mp hnd).2.2
      intro hmem
      exact hdisj hmem (by simp)
    have hlt' : ∀ v ∈ l.map Prod.fst, v < N := by
      intro v hv
      exact hlt v (by simp [hv])
    rw [List.foldl_append, List.foldl_cons, List.foldl_nil, ih hnd' hlt']
    have hFlen : (l.filter
        (fun vg => decide (vg.1 ∉ segVals p1 point1 point2 N))).length ≤
        N - (point2 + 1 - point1) := by
      have hml : (l.filter (fun vg => decide (vg.1 ∉ segVals p1 point1 point2 N))).length =
          ((l.map Prod.fst).filter
            (fun v => decide (v ∉ segVals p1 point1 point2 N))).length := by
        rw [← filtered_map_fst p1 point1 point2 N l, List.length_map]
      rw [hml]
      exact filtered_le_free p1 point1 point2 N h12 h2N h1 (l.map Prod.fst) hnd' hlt'
    have hperm := (insRun_spec p1 N point1 point2 hN h12 h2N
      (l.filter (fun vg => decide (vg.1 ∉ segVals p1 point1 point2 N))) hFlen).2.2.2.2.1
    have hcontains : (insRun p1 point1 point2 N
        (l.filter (fun vg => decide (vg.1 ∉ segVals p1 point1 point2 N)))).childOrder.contains
          (some x.1) = true ↔
        x.1 ∈ segVals p1 point1 point2 N := by
      rw [show ((insRun p1 point1 point2 N
          (l.filter (fun vg => decide (vg.1 ∉ segVals p1 point1 point2 N)))).childOrder.contains
          (some x.1) = true) ↔ some x.1 ∈ (insRun p1 point1 point2 N
          (l.filter (fun vg => decide (vg.1 ∉ segVals p1 point1 point2 N)))).childOrder from
        by simp [List.contains_eq_any_beq]]
      constructor
      · intro hmem
        have hfm : x.1 ∈ (insRun p1 point1 point2 N
            (l.filter (fun vg =>
              decide (vg.1 ∉ segVals p1 point1 point2 N)))).childOrder.filterMap id := by
          rw [List.mem_filterMap]
          exact ⟨some x.1, hmem, rfl⟩
        rcases List.mem_append.mp (hperm.mem_iff.mp hfm) with h | h
        · exact h
        · exfalso
          rw [filtered_map_fst] at h
          exact hxl ((List.filter_sublist _).mem h)
      · intro hseg
        have hms : x.1 ∈ (segVals p1 point1 point2 N ++
            (l.filter (fun vg => decide (vg.1 ∉ segVals p1 point1 point2 N))).map Prod.fst) :=
          List.mem_append.mpr (Or.inl hseg)
        have hmem := hperm.mem_iff.mpr hms
        rw [List.mem_filterMap] at hmem
        obtain ⟨a, ha, hae⟩ := hmem
        simp only [id] at hae
        subst hae
        exact ha
    by_cases hseg : x.1 ∈ segVals p1 point1 point2 N
    · rw [oxStep_skip N _ x (hcontains.mpr hseg), List.filter_append,
        show List.filter (fun vg => decide (vg.1 ∉ segVals p1 point1 point2 N)) [x] = [] from
          by simp [hseg],
        List.append_nil]
    · rw [oxStep_write N _ x (by rw [hcontains]; exact hseg), List.filter_append,
        show List.filter (fun vg => decide (vg.1 ∉ segVals p1 point1 point2 N)) [x] = [x] from
          by simp [hseg],
        insRun_append_singleton]

theorem oxScan_fst_perm (p2 : Chromosome) (point2 N : ℕ) (hN : 0 < N)
    (hp2 : p2.order.Perm (List.range N)) :
    ((oxScanList p2 point2 N).map Prod.fst).Perm (List.range N) := by
  have hlen : p2.order.length = N := order_length p2 N hp2
  have hxs : (oxScanList p2 point2 N).map Prod.fst =
      ((List.range N).map (fun i => (point2 + 1 + i) % N)).map
        (fun j => p2.order.getD j 0) := by
    simp only [oxScanList, List.map_map]
    rfl
  have hidxnd : ((List.range N).map (fun i => (point2 + 1 + i) % N)).Nodup := by
    refine List.Nodup.map_on ?_ (List.nodup_range N)
    intro i hi i' hi' heq
    by_contra hne
    exact slot_inj N (point2 + 1) i i' hN (List.mem_range.mp hi) (List.mem_range.mp hi')
      hne heq
  have hidxfin : ((List.range N).map (fun i => (point2 + 1 + i) % N)).toFinset =
      (List.range N).toFinset := by
    have hsub : ((List.range N).map (fun i => (point2 + 1 + i) % N)).toFinset ⊆
        (List.range N).toFinset := by
      intro v hv
      rw [List.mem_toFinset] at hv
      obtain ⟨i, _, rfl⟩ := List.mem_map.mp hv
      rw [List.mem_toFinset, List.mem_range]
      exact Nat.mod_lt _ hN
    refine Finset.eq_of_subset_of_card_le hsub ?_
    rw [List.toFinset_card_of_nodup hidxnd, List.toFinset_card_of_nodup (List.nodup_range N)]
    simp
  have hidx : ((List.range N).map (fun i => (point2 + 1 + i) % N)).Perm (List.range N) :=
    List.perm_of_nodup_nodup_toFinset_eq hidxnd (List.nodup_range N) hidxfin
  rw [hxs]
  refine (hidx.map (fun j => p2.order.getD j 0)).trans ?_
  rw [show List.range N = List.range p2.order.length from by rw [hlen]]
  rw [map_getD_range p2.order 0]
  rw [hlen]
  exact hp2

theorem oxFill_spec (p1 p2 : Chromosome) (N point1 point2 : ℕ)
    (hN : 0 < N) (h12 : point1 ≤ point2) (h2N : point2 < N)
    (h1 : p1.order.Perm (List.range N)) (hp2 : p2.order.Perm (List.range N)) :
    (oxFill p1 p2 point1 point2).childOrder.length = N ∧
    (oxFill p1 p2 point1 point2).childGenes.length = N ∧
    (∀ o ∈ (oxFill p1 p2 point1 point2).childOrder, o.isSome) ∧
    (∀ g ∈ (oxFill p1 p2 point1 point2).childGenes, g.isSome) ∧
    ((oxFill p1 p2 point1 point2).childOrder.map (fun o => o.getD 0)).Perm
      (List.range N) := by
  have hlen : p1.order.length = N := order_length p1 N h1
  have hfill : oxFill p1 p2 point1 point2 =
      (oxScanList p2 point2 N).foldl (oxStep N) (oxChildInit p1 point1 point2 N) := by
    rw [oxFill, hlen]
  have hscan := oxScan_fst_perm p2 point2 N hN hp2
  have hnd : ((oxScanList p2 point2 N).map Prod.fst).Nodup :=
    hscan.nodup_iff.mpr (List.nodup_range N)
  have hltv : ∀ v ∈ (oxScanList p2 point2 N).map Prod.fst, v < N :=
    fun v hv => List.mem_range.mp (hscan.mem_iff.mp hv)
  rw [hfill, oxFold_eq p1 N point1 point2 hN h12 h2N h1 _ hnd hltv]
  have hFlen_le : ((oxScanList p2 point2 N).filter
      (fun vg => decide (vg.1 ∉ segVals p1 point1 point2 N))).length ≤
      N - (point2 + 1 - point1) := by
    have hml : ((oxScanList p2 point2 N).filter
        (fun vg => decide (vg.1 ∉ segVals p1 point1 point2 N))).length =
        (((oxScanList p2 point2 N).map Prod.fst).filter
          (fun v => decide (v ∉ segVals p1 point1 point2 N))).length := by
      rw [← filtered_map_fst p1 point1 point2 N, List.length_map]
    rw [hml]
    exact filtered_le_free p1 point1 point2 N h12 h2N h1 _ hnd hltv
  obtain ⟨hpos, holen, hglen, hslots, hoperm, hgcount⟩ :=
    insRun_spec p1 N point1 point2 hN h12 h2N
      ((oxScanList p2 point2 N).filter
        (fun vg => decide (vg.1 ∉ segVals p1 point1 point2 N))) hFlen_le
  have hFperm : (((oxScanList p2 point2 N).filter
      (fun vg => decide (vg.1 ∉ segVals p1 point1 point2 N))).map Prod.fst).Perm
      ((List.range N).filter (fun v => decide (v ∉ segVals p1 point1 point2 N))) := by
    rw [filtered_map_fst]
    exact hscan.filter _
  have hsegperm : (segVals p1 point1 point2 N).Perm
      ((List.range N).filter (fun v => decide (v ∈ segVals p1 point1 point2 N))) := by
    refine List.perm_of_nodup_nodup_toFinset_eq (segVals_nodup p1 point1 point2 N h1)
      ((List.nodup_range N).filter _) ?_
    ext v
    simp only [List.mem_toFinset, List.mem_filter, List.mem_range, decide_eq_true_eq]
    constructor
    · intro hv
      exact ⟨segVals_lt p1 point1 point2 N h1 v hv, hv⟩
    · intro hv
      exact hv.2
  have hq : (fun v => decide (v ∉ segVals p1 point1 point2 N)) =
      (fun v => !decide (v ∈ segVals p1 point1 point2 N)) := by
    funext v
    simp
  rw [hq] at hFperm
  have hcontent : (segVals p1 point1 point2 N ++
      ((oxScanList p2 point2 N).filter
        (fun vg => decide (vg.1 ∉ segVals p1 point1 point2 N))).map Prod.fst).Perm
      (List.range N) :=
    (hsegperm.append hFperm).trans
      (List.filter_append_perm (fun v => decide (v ∈ segVals p1 point1 point2 N))
        (List.range N))
  have hofmlen : ((insRun p1 point1 point2 N
      ((oxScanList p2 point2 N).filter
        (fun vg => decide (vg.1 ∉ segVals p1 point1 point2 N)))).childOrder.filterMap
      id).length = N := by
    rw [(hoperm.trans hcontent).length_eq, List.length_range]
  have hosome := all_isSome_of_filterMap_length _ (hofmlen.trans holen.symm)
  have hsegl : (segVals p1 point1 point2 N).length = point2 + 1 - point1 :=
    segVals_length p1 point1 point2 N h12 h2N
  have hsum : (segVals p1 point1 point2 N).length +
      (((oxScanList p2 point2 N).filter
        (fun vg => decide (vg.1 ∉ segVals p1 point1 point2 N))).map Prod.fst).length = N := by
    have := hcontent.length_eq
    rw [List.length_append] at this
    rw [this, List.length_range]
  have hgfmlen : ((insRun p1 point1 point2 N
      ((oxScanList p2 point2 N).filter
        (fun vg => decide (vg.1 ∉ segVals p1 point1 point2 N)))).childGenes.filterMap
      id).length = N := by
    rw [hgcount]
    have hsi : (segIdx point1 point2 N).length = (segVals p1 point1 point2 N).length := by
      rw [segVals, List.length_map]
    rw [hsi]
    rw [List.length_map] at hsum
    exact hsum
  have hgsome := all_isSome_of_filterMap_length _ (hgfmlen.trans hglen.symm)
  refine ⟨holen, hglen, hosome, hgsome, ?_⟩
  rw [map_getD_of_all_isSome _ 0 hosome]
  exact hoperm.trans hcontent

/-- C9 statement. -/
theorem C9_orderCrossover_children_are_permutations
    (parent1 parent2 : GeneticAlgorithm.Chromosome) (N rand1 rand2 : ℕ)
    (hN : 0 < N) (hr1 : rand1 < N) (hr2 : rand2 < N)
    (h1 : parent1.order.Perm (List.range N))
    (h2 : parent2.order.Perm (List.range N)) :
    (∀ o ∈ (GeneticAlgorithm.oxFill parent1 parent2 (min rand1 rand2)
      (max rand1 rand2)).childOrder, o.isSome) ∧
    (∀ g ∈ (GeneticAlgorithm.oxFill parent1 parent2 (min rand1 rand2)
      (max rand1 rand2)).childGenes, g.isSome) ∧
    (∀ o ∈ (GeneticAlgorithm.oxFill parent2 parent1 (min rand1 rand2)
      (max rand1 rand2)).childOrder, o.isSome) ∧
    (∀ g ∈ (GeneticAlgorithm.oxFill parent2 parent1 (min rand1 rand2)
      (max rand1 rand2)).childGenes, g.isSome) ∧
    ((GeneticAlgorithm.orderCrossover parent1 parent2 rand1 rand2).1.order.Perm
      (List.range N)) ∧
    ((GeneticAlgorithm.orderCrossover parent1 parent2 rand1 rand2).2.order.Perm
      (List.range N)) ∧
    (GeneticAlgorithm.orderCrossover parent1 parent2 rand1 rand2).1.genes.length = N ∧
    (GeneticAlgorithm.orderCrossover parent1 parent2 rand1 rand2).2.genes.length = N := by
  have hs1 := oxFill_spec parent1 parent2 N (min rand1 rand2) (max rand1 rand2) hN
    (min_le_max) (by omega) h1 h2
  have hs2 := oxFill_spec parent2 parent1 N (min rand1 rand2) (max rand1 rand2) hN
    (min_le_max) (by omega) h2 h1
  have hc1o : (GeneticAlgorithm.orderCrossover parent1 parent2 rand1 rand2).1.order =
      (GeneticAlgorithm.oxFill parent1 parent2 (min rand1 rand2)
        (max rand1 rand2)).childOrder.map (fun o => o.getD 0) := rfl
  have hc2o : (GeneticAlgorithm.orderCrossover parent1 parent2 rand1 rand2).2.order =
      (GeneticAlgorithm.oxFill parent2 parent1 (min rand1 rand2)
        (max rand1 rand2)).childOrder.map (fun o => o.getD 0) := rfl
  have hc1g : (GeneticAlgorithm.orderCrossover parent1 parent2 rand1 rand2).1.genes =
      (GeneticAlgorithm.oxFill parent1 parent2 (min rand1 rand2)
        (max rand1 rand2)).childGenes.map (fun g => g.getD ⟨0⟩) := rfl
  have hc2g : (GeneticAlgorithm.orderCrossover parent1 parent2 rand1 rand2).2.genes =
      (GeneticAlgorithm.oxFill parent2 parent1 (min rand1 rand2)
        (max rand1 rand2)).childGenes.map (fun g => g.getD ⟨0⟩) := rfl
  refine ⟨hs1.2.2.1, hs1.2.2.2.1, hs2.2.2.1, hs2.2.2.2.1, ?_, ?_, ?_, ?_⟩
  · rw [hc1o]
    exact hs1.2.2.2.2
  · rw [hc2o]
    exact hs2.2.2.2.2
  · rw [hc1g, List.length_map]
    exact hs1.2.1
  · rw [hc2g, List.length_map]
    exact hs2.2.1

/-- C9 witness. -/
theorem C9_orderCrossover_children_are_permutations_witness :
    (∀ o ∈ (GeneticAlgorithm.oxFill oxWitnessP1 oxWitnessP2 (min 2 1)
      (max 2 1)).childOrder, o.isSome) ∧
    (∀ g ∈ (GeneticAlgorithm.oxFill oxWitnessP1 oxWitnessP2 (min 2 1)
      (max 2 1)).childGenes, g.isSome) ∧
    (∀ o ∈ (GeneticAlgorithm.oxFill oxWitnessP2 oxWitnessP1 (min 2 1)
      (max 2 1)).childOrder, o.isSome) ∧
    (∀ g ∈ (GeneticAlgorithm.oxFill oxWitnessP2 oxWitnessP1 (min 2 1)
      (max 2 1)).childGenes, g.isSome) ∧
    ((GeneticAlgorithm.orderCrossover oxWitnessP1 oxWitnessP2 2 1).1.order.Perm
      (List.range 3)) ∧
    ((GeneticAlgorithm.orderCrossover oxWitnessP1 oxWitnessP2 2 1).2.order.Perm
      (List.range 3)) ∧
    (GeneticAlgorithm.orderCrossover oxWitnessP1 oxWitnessP2 2 1).1.genes.length = 3 ∧
    (GeneticAlgorithm.orderCrossover oxWitnessP1 oxWitnessP2 2 1).2.genes.length = 3 :=
  C9_orderCrossover_children_are_permutations oxWitnessP1 oxWitnessP2 3 2 1
    (by decide) (by decide) (by decide) (by decide) (by decide)

end Nesting
